import Mathlib

/-!
# RawTherapee histogram panel (`rtgui/histogrampanel.cc`)

A shallow embedding of the histogram panel, the graphical histogram area and
the RGB readout bar, followed by theorems about them.

Conventions of the embedding:

* `unsigned int` values are natural numbers; the one place where an unsigned
  value is converted to `int` goes through `toInt`, which wraps modulo `2^32`.
* `int` values describing widget geometry and loop counters are integers,
  evaluated exactly (the toolkit keeps widget sizes far from the `int` range).
* `double` values are rationals, evaluated exactly; the logarithm of
  `HistogramScaling::log` is the real logarithm. The zoom factor of
  `on_motion_notify_event`, whose two divisors can be zero, is computed in
  `Dbl`, which adds the infinities and NaN.
* Drawing is recorded as the list of shapes handed to the Cairo context.
* The idle helper of `update` is a step system over the helper, the widget and
  the queue of idle callbacks.
-/

namespace Histogram

/-! ## Data model -/

/-- Bucket table `LUTu` (from `rtengine/LUT.h`): an `unsigned int` count per
bucket index. Only the indices `0..255` are ever read. -/
abbrev LUTu := Nat → Nat

/-- Conversion of an `unsigned int` to `int`, as in
`int realhistheight = fullhistheight;`. -/
def toInt (u : Nat) : Int :=
  if u % 2 ^ 32 < 2 ^ 31 then ((u % 2 ^ 32 : Nat) : Int) else ((u % 2 ^ 32 : Nat) : Int) - 2 ^ 32

/-- The five histogram channels that own a visibility flag. -/
inductive Channel where
  | luma
  | chroma
  | red
  | green
  | blue
  deriving DecidableEq, Repr, Fintype

/-- State of `HistogramArea`, with the members it inherits from `BackBuffer`
(`dirty`, `w`, `h`) and `HistogramScaling` (`factor`); `realized`, `winw` and
`winh` are what the toolkit answers to `get_realized` and `get_geometry`. -/
structure HistogramArea where
  realized : Bool
  winw : Int
  winh : Int
  dirty : Bool
  w : Int
  h : Int
  factor : ℚ
  valid : Bool
  drawMode : Int
  oldwidth : Int
  oldheight : Int
  needLuma : Bool
  needRed : Bool
  needGreen : Bool
  needBlue : Bool
  rawMode : Bool
  needChroma : Bool
  isPressed : Bool
  movingPosition : ℚ
  lhist : LUTu
  rhist : LUTu
  ghist : LUTu
  bhist : LUTu
  chist : LUTu
  rhistRaw : LUTu
  ghistRaw : LUTu
  bhistRaw : LUTu

namespace HistogramArea

/-! ## `HistogramArea::updateBackBuffer`: working arrays and display scale -/

/-- Source line `LUTu& rh = rawMode ? rhistRaw : rhist;` -/
def rh (s : HistogramArea) : LUTu := if s.rawMode then s.rhistRaw else s.rhist

/-- Source line `LUTu& gh = rawMode ? ghistRaw : ghist;` -/
def gh (s : HistogramArea) : LUTu := if s.rawMode then s.ghistRaw else s.ghist

/-- Source line `LUTu& bh = rawMode ? bhistRaw : bhist;` -/
def bh (s : HistogramArea) : LUTu := if s.rawMode then s.bhistRaw else s.bhist

/-- Source line `const int scale = (rawMode ? 8 : 1);` -/
def scale (s : HistogramArea) : Nat := if s.rawMode then 8 else 1

/-- Local `lhisttemp` after the copy loop: zero-initialised, bucket `i < 256` is
overwritten with `lhist[i]` when `needLuma`. -/
def lhisttemp (s : HistogramArea) (i : Nat) : Nat :=
  if i < 256 then (if s.needLuma then s.lhist i else 0) else 0

/-- Local `chisttemp` after the copy loop. -/
def chisttemp (s : HistogramArea) (i : Nat) : Nat :=
  if i < 256 then (if s.needChroma then s.chist i else 0) else 0

/-- Local `rhtemp` after the copy loop: `rhtemp[i] = rh[i] / scale` when `needRed`. -/
def rhtemp (s : HistogramArea) (i : Nat) : Nat :=
  if i < 256 then (if s.needRed then s.rh i / s.scale else 0) else 0

/-- Local `ghtemp` after the copy loop. -/
def ghtemp (s : HistogramArea) (i : Nat) : Nat :=
  if i < 256 then (if s.needGreen then s.gh i / s.scale else 0) else 0

/-- Local `bhtemp` after the copy loop. -/
def bhtemp (s : HistogramArea) (i : Nat) : Nat :=
  if i < 256 then (if s.needBlue then s.bh i / s.scale else 0) else 0

/-- Local `rhchanged`, the table handed to `drawCurve` and `drawMarks` for red; it
receives the same value as `rhtemp` in the chained assignment
`rhchanged[i] = rhtemp[i] = rh[i] / scale`. -/
def rhchanged (s : HistogramArea) : LUTu := fun i =>
  if i < 256 then (if s.needRed then s.rh i / s.scale else 0) else 0

/-- Local `ghchanged`, the table drawn for green. -/
def ghchanged (s : HistogramArea) : LUTu := fun i =>
  if i < 256 then (if s.needGreen then s.gh i / s.scale else 0) else 0

/-- Local `bhchanged`, the table drawn for blue. -/
def bhchanged (s : HistogramArea) : LUTu := fun i =>
  if i < 256 then (if s.needBlue then s.bh i / s.scale else 0) else 0

/-- One iteration of the loop `for (int i = 1; i < 255; i++)` that raises
`fullhistheight` to the counts of the active channels at bucket `i`. -/
def scanBucket (s : HistogramArea) (acc : Nat) (i : Nat) : Nat :=
  let a1 := if s.needLuma && decide (s.lhisttemp i > acc) then s.lhisttemp i else acc
  let a2 := if s.needChroma && decide (s.chisttemp i > a1) then s.chisttemp i else a1
  let a3 := if s.needRed && decide (s.rhtemp i > a2) then s.rhtemp i else a2
  let a4 := if s.needGreen && decide (s.ghtemp i > a3) then s.ghtemp i else a3
  if s.needBlue && decide (s.bhtemp i > a4) then s.bhtemp i else a4

/-- Local `fullhistheight` after the scan of the buckets `1..254`. -/
def fullhistheight (s : HistogramArea) : Nat :=
  (List.range' 1 254).foldl s.scanBucket 0

/-- Local `realhistheight`: `fullhistheight` converted to `int`, raised to
`winh - 2` when it is below it. -/
def realhistheight (s : HistogramArea) (winh : Int) : Int :=
  let r := toInt s.fullhistheight
  if r < winh - 2 then winh - 2 else r

/-- Visibility flag of a channel. -/
def flag (s : HistogramArea) : Channel → Bool
  | .luma => s.needLuma
  | .chroma => s.needChroma
  | .red => s.needRed
  | .green => s.needGreen
  | .blue => s.needBlue

/-- Working count of a channel at a bucket. -/
def working (s : HistogramArea) : Channel → Nat → Nat
  | .luma => s.lhisttemp
  | .chroma => s.chisttemp
  | .red => s.rhtemp
  | .green => s.ghtemp
  | .blue => s.bhtemp

/-- Largest working count, over the buckets `1..254` and the channels whose
flag is set (`0` when there is none). -/
def activeMax (s : HistogramArea) : Nat :=
  (Finset.Icc 1 254).sup fun i =>
    (Finset.univ.filter fun c => s.flag c = true).sup fun c => s.working c i

/-- All eight stored tables hold counts below `bound` at the buckets `0..255`. -/
def CountsBelow (s : HistogramArea) (bound : Nat) : Prop :=
  ∀ i, i < 256 →
    s.lhist i < bound ∧ s.chist i < bound ∧ s.rhist i < bound ∧ s.ghist i < bound ∧
    s.bhist i < bound ∧ s.rhistRaw i < bound ∧ s.ghistRaw i < bound ∧ s.bhistRaw i < bound

/-- Two states carry the same flags and the same counts at the buckets `1..254`
(they may differ at the buckets `0` and `255` of any table). -/
def SameInnerBuckets (s t : HistogramArea) : Prop :=
  s.needLuma = t.needLuma ∧ s.needChroma = t.needChroma ∧ s.needRed = t.needRed ∧
  s.needGreen = t.needGreen ∧ s.needBlue = t.needBlue ∧ s.rawMode = t.rawMode ∧
  ∀ i, 1 ≤ i → i ≤ 254 →
    s.lhist i = t.lhist i ∧ s.chist i = t.chist i ∧ s.rhist i = t.rhist i ∧
    s.ghist i = t.ghist i ∧ s.bhist i = t.bhist i ∧ s.rhistRaw i = t.rhistRaw i ∧
    s.ghistRaw i = t.ghistRaw i ∧ s.bhistRaw i = t.bhistRaw i

/-- Every stored table is zero at the buckets `0..255`. -/
def AllZero (s : HistogramArea) : Prop :=
  ∀ i, i < 256 →
    s.lhist i = 0 ∧ s.chist i = 0 ∧ s.rhist i = 0 ∧ s.ghist i = 0 ∧
    s.bhist i = 0 ∧ s.rhistRaw i = 0 ∧ s.ghistRaw i = 0 ∧ s.bhistRaw i = 0

/-! ## `HistogramArea::drawMarks` and the mark calls of `updateBackBuffer` -/

end HistogramArea

/-- Rectangle added to the Cairo path by `cr->rectangle(x, y, width, height)`. -/
structure Rect where
  x : Int
  y : Int
  width : Int
  height : Int
  deriving DecidableEq, Repr

/-- Two rectangles share no interior point. -/
def Rect.Disjoint (a b : Rect) : Prop :=
  a.x + a.width ≤ b.x ∨ b.x + b.width ≤ a.x ∨ a.y + a.height ≤ b.y ∨ b.y + b.height ≤ a.y

/-- What the mark calls of one `updateBackBuffer` have produced so far: the
rectangles filled, in order, and the counters `ui` and `oi`. -/
structure MarkState where
  rects : List Rect
  ui : Int
  oi : Int
  deriving DecidableEq, Repr

namespace HistogramArea

/-- Source function `HistogramArea::drawMarks`: with `s = 8`, a square at `(0, ui*s)` when
`data[0] > scale` (then `ui++`), a square at `(hsize - s, oi*s)` when
`data[255] > scale` (then `oi++`), then `fill`. -/
def drawMarks (data : LUTu) (scale : ℚ) (hsize : Int) (m : MarkState) : MarkState :=
  let s : Int := 8
  let m1 : MarkState :=
    if (data 0 : ℚ) > scale then
      { rects := m.rects ++ [⟨0, m.ui * s, s, s⟩], ui := m.ui + 1, oi := m.oi }
    else m
  if (data 255 : ℚ) > scale then
    { rects := m1.rects ++ [⟨hsize - s, m1.oi * s, s, s⟩], ui := m1.ui, oi := m1.oi + 1 }
  else m1

/-- The `drawMarks` calls of `updateBackBuffer` (valid data), in source order,
starting from `ui = 0, oi = 0`; `winh` is the window height and `s.w` the
surface width passed as `hsize`. -/
def updateBackBufferMarks (s : HistogramArea) (winh : Int) : MarkState :=
  let realhistheight : ℚ := ((s.realhistheight winh : Int) : ℚ)
  let m0 : MarkState := { rects := [], ui := 0, oi := 0 }
  let m1 := if s.needLuma && !s.rawMode then drawMarks s.lhist realhistheight s.w m0 else m0
  let m2 := if s.needChroma && !s.rawMode then drawMarks s.chist realhistheight s.w m1 else m1
  let m3 := if s.needRed then drawMarks s.rhchanged realhistheight s.w m2 else m2
  let m4 := if s.needGreen then drawMarks s.ghchanged realhistheight s.w m3 else m3
  if s.needBlue then drawMarks s.bhchanged realhistheight s.w m4 else m4

/-- The tables of the channels that `updateBackBuffer` draws, in drawing order. -/
def drawnTables (s : HistogramArea) : List LUTu :=
  (if s.needLuma && !s.rawMode then [s.lhist] else []) ++
  (if s.needChroma && !s.rawMode then [s.chist] else []) ++
  (if s.needRed then [s.rhchanged] else []) ++
  (if s.needGreen then [s.ghchanged] else []) ++
  (if s.needBlue then [s.bhchanged] else [])

/-- The mark calls for a list of tables, from `ui = 0, oi = 0`. -/
def marksFor (scale : ℚ) (hsize : Int) (tables : List LUTu) : MarkState :=
  tables.foldl (fun m d => drawMarks d scale hsize m) { rects := [], ui := 0, oi := 0 }

/-- Number of tables whose bucket `b` is strictly above the scale. -/
def exceeding (scale : ℚ) (b : Nat) (tables : List LUTu) : Nat :=
  tables.countP fun d => decide ((d b : ℚ) > scale)

end HistogramArea

/-! ## Globals and external routines -/

/-- The fields of the global `options` that the panel reads and writes. -/
structure Options where
  histogramBar : Bool
  histogramDrawMode : Int
  histogramHeight : Int
  histogramPosition : Int

/-- Routines of other libraries that the drawing code calls: `std::log`,
`sqrt`, and `rtengine::Color::rgb2lab01` (which returns `Lab_L, Lab_a, Lab_b`). -/
structure Extern where
  ln : ℚ → ℚ
  sqrt : ℚ → ℚ
  rgb2lab01 : ℚ → ℚ → ℚ → ℚ × ℚ × ℚ

/-- Source function `HistogramScaling::log`:
`vsize * log(factor / (factor + val)) / log(factor / (factor + vsize))`,
over any field `K`, for a given logarithm `ln`. -/
def HistogramScaling.log {K : Type} [Div K] [Mul K] [Add K] (ln : K → K)
    (factor vsize val : K) : K :=
  vsize * ln (factor / (factor + val)) / ln (factor / (factor + vsize))

/-! ## Doubles with infinities and NaN -/

/-- Value of a `double` expression whose operands are read exactly: a number,
an infinity, or NaN. It is used where the code divides by a value that can be
zero. Zero stands for `+0`: the zero divisors met in this file are the `int` 0
converted to `double` and the sum `1 + (-1)`, both `+0`. -/
inductive Dbl where
  | num (q : ℚ)
  | posInf
  | negInf
  | nan
  deriving DecidableEq, Repr

namespace Dbl

/-- Addition of doubles: `inf + (-inf)` is NaN, NaN is absorbing. -/
def add : Dbl → Dbl → Dbl
  | num a, num b => num (a + b)
  | nan, _ => nan
  | _, nan => nan
  | posInf, negInf => nan
  | negInf, posInf => nan
  | posInf, _ => posInf
  | _, posInf => posInf
  | negInf, _ => negInf
  | _, negInf => negInf

/-- Division of doubles: a non-zero number over zero is the infinity of its
sign, `0 / 0` and `inf / inf` are NaN, a number over an infinity is zero. -/
def div : Dbl → Dbl → Dbl
  | num a, num b =>
    if b = 0 then (if 0 < a then posInf else if a < 0 then negInf else nan) else num (a / b)
  | nan, _ => nan
  | _, nan => nan
  | num _, posInf => num 0
  | num _, negInf => num 0
  | posInf, num b => if 0 ≤ b then posInf else negInf
  | negInf, num b => if 0 ≤ b then negInf else posInf
  | posInf, posInf => nan
  | posInf, negInf => nan
  | negInf, posInf => nan
  | negInf, negInf => nan

/-- Comparison `a < b` of doubles: false as soon as one side is NaN. -/
def lt : Dbl → Dbl → Bool
  | num a, num b => decide (a < b)
  | nan, _ => false
  | _, nan => false
  | negInf, negInf => false
  | negInf, _ => true
  | _, negInf => false
  | posInf, _ => false
  | _, posInf => true

end Dbl

/-! ## `HistogramArea`: state transitions -/

namespace HistogramArea

/-- Modelled from the spec: `BackBuffer::setDrawRectangle` (guiutils, not in
src), which "will create or update the size of the BackBuffer::surface": the
surface takes the size of the widget's window. -/
def setDrawRectangle (s : HistogramArea) (winw winh : Int) : HistogramArea :=
  { s with w := winw, h := winh }

/-- State change of `HistogramArea::updateBackBuffer`: nothing on an unrealized
widget; otherwise the surface is resized to the window, redrawn, `oldwidth` and
`oldheight` record its size and the bitmap is marked clean. -/
def updateBackBuffer (s : HistogramArea) : HistogramArea :=
  if !s.realized then s
  else
    let s1 := s.setDrawRectangle s.winw s.winh
    { s1 with oldwidth := s1.w, oldheight := s1.h, dirty := false }

/-- Source function `HistogramArea::updateOptions`. -/
def updateOptions (s : HistogramArea) (r g b l raw c : Bool) (mode : Int) : HistogramArea :=
  updateBackBuffer
    { s with needRed := r, needGreen := g, needBlue := b, needLuma := l, rawMode := raw,
             needChroma := c, drawMode := mode }

/-- The factor computed by `on_motion_notify_event`:
`mod = 1 + (x - movingPosition) / get_width ()`, `factor /= mod`, then
`if (factor < 1.0) factor = 1.0; if (factor > 100.0) factor = 100.0;`, with
the divisions, the sum and the comparisons of doubles. -/
def zoomFactor (factor x movingPosition : ℚ) (width : Int) : Dbl :=
  let mod := Dbl.add (Dbl.num 1) (Dbl.div (Dbl.num (x - movingPosition)) (Dbl.num (width : ℚ)))
  let f0 := Dbl.div (Dbl.num factor) mod
  let f1 := if Dbl.lt f0 (Dbl.num 1) then Dbl.num 1 else f0
  if Dbl.lt (Dbl.num 100) f1 then Dbl.num 100 else f1

/-- Source function `HistogramArea::on_motion_notify_event` for a pointer at `x` on a widget of
width `width`: the new state and the value emitted through `sigFactorChanged`,
if any. The result is `none` when the factor stored and emitted is not a
number (NaN), which the state, whose factor is a number, cannot hold. -/
def on_motion_notify_event (s : HistogramArea) (x : ℚ) (width : Int) :
    Option (HistogramArea × Option ℚ) :=
  if s.isPressed then
    match zoomFactor s.factor x s.movingPosition width with
    | Dbl.num factor => some ({ s with factor := factor, dirty := true }, some factor)
    | _ => none
  else some (s, none)

/-- Source function `HistogramArea::on_button_release_event`. -/
def on_button_release_event (s : HistogramArea) : HistogramArea :=
  { s with isPressed := false }

end HistogramArea

/-! ## `HistogramRGBArea` -/

/-- Widgets that can be children of the panel's `gfxGrid`. -/
inductive Widget where
  | histogramArea
  | histogramRGBArea
  deriving DecidableEq, Repr

/-- Modelled from the spec: a `Gtk::Container` (toolkit, not in src), as the
list of the widgets attached to it. -/
structure Container where
  children : List Widget
  deriving DecidableEq, Repr

/-- Modelled from the spec: `Gtk::Container::add` attaches the widget. -/
def Container.add (c : Container) (w : Widget) : Container :=
  { children := c.children ++ [w] }

/-- Modelled from the spec: `removeIfThere` (guiutils, not in src) detaches the
widget if it is attached. -/
def Container.removeIfThere (c : Container) (w : Widget) : Container :=
  { children := c.children.erase w }

/-- One stroked line of the readout bar: `move_to (x, y0); line_to (x, y1);
stroke ()` in the colour of `channel`. -/
structure Tick where
  channel : Channel
  x0 : ℚ
  y0 : ℚ
  x1 : ℚ
  y1 : ℚ
  deriving DecidableEq, Repr

/-- Content of the readout bar's `BackBuffer::surface`. -/
structure RGBSurface where
  width : Int
  height : Int
  ticks : List Tick
  deriving DecidableEq, Repr

/-- State of `HistogramRGBArea`, with the members inherited from `BackBuffer`
(`dirty`, `surface`) and `HistogramScaling` (`factor`); `realized`, `winw` and
`winh` are what the toolkit answers to `get_realized` and `get_geometry`. -/
structure HistogramRGBArea where
  realized : Bool
  winw : Int
  winh : Int
  dirty : Bool
  surface : Option RGBSurface
  factor : ℚ
  val : Int
  r : Int
  g : Int
  b : Int
  valid : Bool
  needRed : Bool
  needGreen : Bool
  needBlue : Bool
  needLuma : Bool
  rawMode : Bool
  showMode : Bool
  barDisplayed : Bool
  needChroma : Bool

namespace HistogramRGBArea

/-- Visibility flag of a channel on the readout bar. -/
def flag (s : HistogramRGBArea) : Channel → Bool
  | .luma => s.needLuma
  | .chroma => s.needChroma
  | .red => s.needRed
  | .green => s.needGreen
  | .blue => s.needBlue

/-- Source function `HistogramRGBArea::getShow`. -/
def getShow (s : HistogramRGBArea) : Bool := s.showMode

/-- Source function `HistogramRGBArea::factorChanged`. -/
def factorChanged (s : HistogramRGBArea) (newFactor : ℚ) : HistogramRGBArea :=
  { s with factor := newFactor }

/-- Modelled from the spec: `BackBuffer::setDrawRectangle` (guiutils, not in
src), which "will create or update the size of the BackBuffer::surface": the
surface takes the size of the window and keeps what was drawn on it. -/
def setDrawRectangle (s : HistogramRGBArea) (winw winh : Int) : HistogramRGBArea :=
  { s with
    surface := some { width := winw, height := winh,
                      ticks := match s.surface with
                        | some sf => sf.ticks
                        | none => [] } }

/-- Horizontal position of the tick of an 8-bit channel value `v`:
`v * (winw - 3) / 255.0 + 2` below draw mode 2, and
`HistogramScaling::log (255, v) * (winw - 3) / 255.0 + 2` otherwise. -/
def tickX (E : Extern) (opts : Options) (s : HistogramRGBArea) (v : Int) : ℚ :=
  if opts.histogramDrawMode < 2 then ((v * (s.winw - 3) : Int) : ℚ) / 255 + 2
  else HistogramScaling.log E.ln s.factor 255 (v : ℚ) * ((s.winw - 3 : Int) : ℚ) / 255 + 2

/-- Horizontal position of the luma and chroma ticks, for a value `v` on the
scale `0..100`. -/
def tickX100 (E : Extern) (opts : Options) (s : HistogramRGBArea) (v : ℚ) : ℚ :=
  if opts.histogramDrawMode < 2 then v * ((s.winw - 3 : Int) : ℚ) / 100 + 2
  else HistogramScaling.log E.ln s.factor 100 v * ((s.winw - 3 : Int) : ℚ) / 100 + 2

/-- The line from `(x, 0)` to `(x, winh - 0)`. -/
def tickAt (s : HistogramRGBArea) (c : Channel) (x : ℚ) : Tick :=
  { channel := c, x0 := x, y0 := 0, x1 := x, y1 := ((s.winh - 0 : Int) : ℚ) }

/-- The lines stroked by `updateBackBuffer (r, g, b)` on the cleared surface. -/
def ticksFor (E : Extern) (opts : Options) (s : HistogramRGBArea) (r g b : Int) : List Tick :=
  if r ≠ -1 ∧ g ≠ -1 ∧ b ≠ -1 then
    (if s.needRed then [s.tickAt .red (tickX E opts s r)] else []) ++
    (if s.needGreen then [s.tickAt .green (tickX E opts s g)] else []) ++
    (if s.needBlue then [s.tickAt .blue (tickX E opts s b)] else []) ++
    (if s.needLuma || s.needChroma then
      let lab := E.rgb2lab01 ((r : ℚ) / 255) ((g : ℚ) / 255) ((b : ℚ) / 255)
      let chromaval : ℚ := E.sqrt (lab.2.1 * lab.2.1 + lab.2.2 * lab.2.2) / (18 / 10)
      (if s.needLuma then [s.tickAt .luma (tickX100 E opts s lab.1)] else []) ++
      (if s.needChroma then [s.tickAt .chroma (tickX100 E opts s chromaval)] else [])
     else [])
  else []

/-- Source function `HistogramRGBArea::updateBackBuffer (r, g, b, profile, profileW)`: nothing
unless the widget is realized and `showMode` holds; otherwise the surface is
resized, cleared, the ticks are stroked, and the bitmap is marked clean. -/
def updateBackBuffer (E : Extern) (opts : Options) (s : HistogramRGBArea) (r g b : Int) :
    HistogramRGBArea :=
  if !s.realized || !s.showMode then s
  else
    let s1 := s.setDrawRectangle s.winw s.winh
    let s2 :=
      match s1.surface with
      | some sf => { s1 with surface := some { sf with ticks := ticksFor E opts s1 r g b } }
      | none => s1
    { s2 with dirty := false }

/-- The lines present on the surface (none when there is no surface). -/
def drawnTicks (s : HistogramRGBArea) : List Tick :=
  match s.surface with
  | some sf => sf.ticks
  | none => []

/-- Source function `HistogramRGBArea::updateOptions`, acting on the area, on its `parent`
container and on the global options. -/
def updateOptions (s : HistogramRGBArea) (parent : Container) (opts : Options)
    (r g b l raw bar c : Bool) : HistogramRGBArea × Container × Options :=
  let s1 := { s with needRed := r, needGreen := g, needBlue := b, needLuma := l,
                     rawMode := raw, showMode := bar, needChroma := c }
  let st : HistogramRGBArea × Container × Options :=
    if bar && !s1.barDisplayed then
      ({ s1 with barDisplayed := true }, parent.add .histogramRGBArea,
        { opts with histogramBar := true })
    else if !bar && s1.barDisplayed then
      ({ s1 with barDisplayed := false }, parent.removeIfThere .histogramRGBArea,
        { opts with histogramBar := false })
    else (s1, parent, opts)
  if st.1.rawMode then ({ st.1 with showMode := false }, st.2.1, st.2.2) else st

end HistogramRGBArea

/-! ## `HistogramPanel` -/

/-- The GDK event types that the button handlers distinguish. -/
inductive EventType where
  | buttonPress
  | doubleButtonPress
  | tripleButtonPress
  deriving DecidableEq, Repr

/-- Source function `HistogramArea::on_button_press_event` for an event of type `type` at `x`
with button `button`: the new area, the new global options, and whether
`myDrawModeListener->toggle_button_mode ()` is to be called. -/
def HistogramArea.on_button_press_event (s : HistogramArea) (opts : Options) (x : ℚ)
    (type : EventType) (button : Int) : HistogramArea × Options × Bool :=
  let s1 := { s with isPressed := true, movingPosition := x }
  if type = .doubleButtonPress ∧ button = 1 then
    let s2 := { s1 with drawMode := (s1.drawMode + 1).tmod 3 }
    let opts2 := { opts with histogramDrawMode := (opts.histogramDrawMode + 1).tmod 3 }
    (s2.updateBackBuffer, opts2, true)
  else (s1, opts, false)

/-- State of `HistogramPanel`: its two children, the grid `gfxGrid` that holds
them, the global options, the `get_active` state of the toggle buttons, the
sensitivity of the luma and chroma buttons, and the index of the image shown on
the mode button. -/
structure HistogramPanel where
  histogramArea : HistogramArea
  histogramRGBArea : HistogramRGBArea
  gfxGrid : Container
  options : Options
  showRed : Bool
  showGreen : Bool
  showBlue : Bool
  showValue : Bool
  showChro : Bool
  showRAW : Bool
  showBAR : Bool
  valueSensitive : Bool
  chroSensitive : Bool
  modeImage : Int

namespace HistogramPanel

/-- The image chosen for the mode button: `mode0Image`, `mode1Image` or
`mode2Image`. -/
def modeImageFor (drawMode : Int) : Int :=
  if drawMode = 0 then 0 else if drawMode = 1 then 1 else 2

/-- Source function `HistogramPanel::rgbv_toggled`. -/
def rgbv_toggled (E : Extern) (p : HistogramPanel) : HistogramPanel :=
  let area := p.histogramArea.updateOptions p.showRed p.showGreen p.showBlue p.showValue
    p.showRAW p.showChro p.options.histogramDrawMode
  let st := p.histogramRGBArea.updateOptions p.gfxGrid p.options p.showRed p.showGreen
    p.showBlue p.showValue p.showRAW p.showBAR p.showChro
  { p with histogramArea := area,
           histogramRGBArea := st.1.updateBackBuffer E st.2.2 0 0 0,
           gfxGrid := st.2.1,
           options := st.2.2 }

/-- Source function `HistogramPanel::mode_released`. -/
def mode_released (E : Extern) (p : HistogramPanel) : HistogramPanel :=
  let mode := (p.options.histogramDrawMode + 1).tmod 3
  rgbv_toggled E
    { p with options := { p.options with histogramDrawMode := mode },
             modeImage := modeImageFor mode }

/-- Source function `HistogramPanel::toggle_button_mode` (the `DrawModeListener` interface). -/
def toggle_button_mode (p : HistogramPanel) : HistogramPanel :=
  { p with modeImage := modeImageFor p.options.histogramDrawMode }

/-- A button press delivered to the histogram area, whose draw-mode listener is
the panel. -/
def on_button_press_event (p : HistogramPanel) (x : ℚ) (type : EventType) (button : Int) :
    HistogramPanel :=
  let st := p.histogramArea.on_button_press_event p.options x type button
  let p1 := { p with histogramArea := st.1, options := st.2.1 }
  if st.2.2 then p1.toggle_button_mode else p1

/-- A pointer motion delivered to the histogram area; `sigFactorChanged` is
connected to `HistogramRGBArea::factorChanged`. The result is `none` when the
factor becomes NaN. -/
def on_motion_notify_event (p : HistogramPanel) (x : ℚ) (width : Int) : Option HistogramPanel :=
  match p.histogramArea.on_motion_notify_event x width with
  | some (area, some f) =>
    some { p with histogramArea := area, histogramRGBArea := p.histogramRGBArea.factorChanged f }
  | some (area, none) => some { p with histogramArea := area }
  | none => none

/-- Source function `HistogramPanel::setHistRGBInvalid`. -/
def setHistRGBInvalid (E : Extern) (p : HistogramPanel) : HistogramPanel :=
  { p with histogramRGBArea := p.histogramRGBArea.updateBackBuffer E p.options (-1) (-1) (-1) }

/-- Source function `HistogramPanel::pointerMoved`; the profiles only reach `rgb2lab01`. -/
def pointerMoved (E : Extern) (p : HistogramPanel) (validPos : Bool) (r g b : Int) :
    HistogramPanel :=
  if !validPos then
    { p with histogramRGBArea := p.histogramRGBArea.updateBackBuffer E p.options (-1) (-1) (-1) }
  else
    { p with histogramRGBArea := p.histogramRGBArea.updateBackBuffer E p.options r g b }

/-- One invocation of the draw-mode cycle: the mode button released, or a
double click with the left button at `x` on the histogram area. -/
inductive CycleStep where
  | modeReleased
  | doubleClick (x : ℚ)

/-- Effect of one cycle invocation. -/
def cycleStep (E : Extern) (p : HistogramPanel) : CycleStep → HistogramPanel
  | .modeReleased => p.mode_released E
  | .doubleClick x => p.on_button_press_event x .doubleButtonPress 1

/-- Effect of a sequence of cycle invocations. -/
def cycle (E : Extern) (p : HistogramPanel) (steps : List CycleStep) : HistogramPanel :=
  steps.foldl (cycleStep E) p

end HistogramPanel

/-! ## Concrete states -/

/-- A state with empty tables, used to build concrete examples. -/
def emptyArea : HistogramArea where
  realized := true
  winw := 400
  winh := 100
  dirty := false
  w := 400
  h := 200
  factor := 10
  valid := true
  drawMode := 0
  oldwidth := -1
  oldheight := -1
  needLuma := false
  needRed := true
  needGreen := true
  needBlue := true
  rawMode := false
  needChroma := false
  isPressed := false
  movingPosition := 0
  lhist := fun _ => 0
  rhist := fun _ => 0
  ghist := fun _ => 0
  bhist := fun _ => 0
  chist := fun _ => 0
  rhistRaw := fun _ => 0
  ghistRaw := fun _ => 0
  bhistRaw := fun _ => 0

/-- A non-raw state whose red table peaks at bucket 10 and is clipped at both
ends, whose green table is clipped at bucket 0, with luma shown as well. -/
def sampleArea : HistogramArea :=
  { emptyArea with
    needLuma := true
    rhist := fun i => if i = 0 then 9000 else if i = 10 then 500 else if i = 255 then 7000 else 3
    ghist := fun i => if i = 0 then 8000 else 2
    lhist := fun i => if i = 20 then 120 else 1
    rhistRaw := fun i => if i = 10 then 4001 else 16 }

/-- The raw-mode variant of `sampleArea`. -/
def sampleAreaRaw : HistogramArea := { sampleArea with rawMode := true }

/-- The state `sampleArea` with other counts in the buckets 0 and 255 of its
red table. -/
def sampleAreaUnclipped : HistogramArea :=
  { sampleArea with
    rhist := fun i => if i = 0 then 1 else if i = 255 then 2 else sampleArea.rhist i }

/-- External routines used in the concrete examples. -/
def sampleExtern : Extern where
  ln := fun x => x - 1
  sqrt := fun x => x
  rgb2lab01 := fun r g b => (100 * g, r - g, g - b)

/-- A realized, shown readout bar of 258 by 8 pixels with an old tick on it. -/
def sampleRGBArea : HistogramRGBArea where
  realized := true
  winw := 258
  winh := 8
  dirty := true
  surface := some { width := 258, height := 8, ticks := [⟨.red, 7, 0, 7, 8⟩] }
  factor := 10
  val := 0
  r := 0
  g := 0
  b := 0
  valid := false
  needRed := true
  needGreen := true
  needBlue := true
  needLuma := false
  rawMode := false
  showMode := true
  barDisplayed := true
  needChroma := false

/-- A panel in linear mode showing the bar, with the button pressed at `x = 300`. -/
def samplePanel : HistogramPanel where
  histogramArea := { sampleArea with isPressed := true, movingPosition := 300 }
  histogramRGBArea := sampleRGBArea
  gfxGrid := { children := [.histogramArea, .histogramRGBArea] }
  options := { histogramBar := true, histogramDrawMode := 0, histogramHeight := 200,
               histogramPosition := 1 }
  showRed := true
  showGreen := true
  showBlue := true
  showValue := true
  showChro := false
  showRAW := false
  showBAR := true
  valueSensitive := true
  chroSensitive := true
  modeImage := 0

/-! ## `HistogramArea`: drawing commands -/

/-- A drawing command issued on the histogram area's Cairo context: a curve
path that is filled or stroked in the colour of a channel, a filled corner
square, or a stroked grid line. -/
inductive DrawCmd where
  | curve (channel : Channel) (filled : Bool) (path : List (ℚ × ℚ))
  | rectangle (r : Rect)
  | line (x0 y0 x1 y1 : ℚ)
  deriving DecidableEq, Repr

/-- Whether the command is a stroked line. -/
def DrawCmd.isLine : DrawCmd → Bool
  | DrawCmd.line _ _ _ _ => true
  | _ => false

/-- Conversion `(int)` of a `double`: truncation towards zero. -/
def truncToInt (q : ℚ) : Int := if 0 ≤ q then ⌊q⌋ else ⌈q⌉

namespace HistogramArea

/-- The divisor of `drawCurve` after the guard
`scale = scale <= 0.f ? 0.001f : scale;`. -/
def curveScale (scale : ℚ) : ℚ := if scale ≤ 0 then 1 / 1000 else scale

/-- The vertex `(posX, posY)` that `drawCurve` adds for bucket `i`. -/
def curveVertex (E : Extern) (s : HistogramArea) (data : LUTu) (scale : ℚ)
    (hsize vsize : Int) (i : Nat) : ℚ × ℚ :=
  let val0 : ℚ := (data i : ℚ) * (vsize : ℚ) / curveScale scale
  let val : ℚ :=
    if s.drawMode > 0 then HistogramScaling.log E.ln s.factor (vsize : ℚ) val0 else val0
  let iscaled : ℚ :=
    if s.drawMode = 2 then HistogramScaling.log E.ln s.factor 255 (i : ℚ) else (i : ℚ)
  let posX : ℚ := iscaled / 255 * ((hsize - 1 : Int) : ℚ)
  let posY : ℚ := ((vsize - 2 : Int) : ℚ) + val * ((4 - vsize : Int) : ℚ) / (vsize : ℚ)
  (posX, posY)

/-- Source function `HistogramArea::drawCurve`: the path made of `move_to (0, vsize - 1)`,
one `line_to` per bucket `0..255`, and `line_to (hsize - 1, vsize - 1)`. -/
def drawCurve (E : Extern) (s : HistogramArea) (data : LUTu) (scale : ℚ)
    (hsize vsize : Int) : List (ℚ × ℚ) :=
  [((0 : ℚ), ((vsize - 1 : Int) : ℚ))] ++
    (List.range 256).map (curveVertex E s data scale hsize vsize) ++
    [(((hsize - 1 : Int) : ℚ), ((vsize - 1 : Int) : ℚ))]

/-- One channel block of `updateBackBuffer`: `drawCurve`, then `fill` or
`stroke`, then `drawMarks`, whose new squares are filled. -/
def drawChannel (E : Extern) (s : HistogramArea) (c : Channel) (filled : Bool) (data : LUTu)
    (realhistheight : Int) (st : List DrawCmd × MarkState) : List DrawCmd × MarkState :=
  let m := drawMarks data (realhistheight : ℚ) s.w st.2
  (st.1 ++ [DrawCmd.curve c filled (drawCurve E s data (realhistheight : ℚ) s.w s.h)] ++
    (m.rects.drop st.2.rects.length).map DrawCmd.rectangle, m)

/-- The commands of the `if (valid)` block of `updateBackBuffer`, for the
window height `winh`, with the final mark counters. -/
def histogramCmds (E : Extern) (s : HistogramArea) (winh : Int) : List DrawCmd × MarkState :=
  let realhistheight := s.realhistheight winh
  let st0 : List DrawCmd × MarkState := ([], { rects := [], ui := 0, oi := 0 })
  let st1 :=
    if s.needLuma && !s.rawMode then drawChannel E s .luma true s.lhist realhistheight st0
    else st0
  let st2 :=
    if s.needChroma && !s.rawMode then drawChannel E s .chroma false s.chist realhistheight st1
    else st1
  let st3 := if s.needRed then drawChannel E s .red false s.rhchanged realhistheight st2 else st2
  let st4 :=
    if s.needGreen then drawChannel E s .green false s.ghchanged realhistheight st3 else st3
  if s.needBlue then drawChannel E s .blue false s.bhchanged realhistheight st4 else st4

/-- Source line
`(int)rtengine::min (16.0, pow (2.0, floor ((h - 100) / 250) + 2))`; the
quotient `(h - 100) / 250` is a truncating division of `int`s. -/
def nrOfHGridPartitions (h : Int) : Int :=
  truncToInt (min (16 : ℚ) ((2 : ℚ) ^ ((h - 100).tdiv 250 + 2)))

/-- The vertical grid line of index `i`, for the stop value `2^i - 1`. -/
def verticalGridLine (E : Extern) (opts : Options) (s : HistogramArea) (i : Nat) : DrawCmd :=
  let stop : ℚ := (2 : ℚ) ^ i - 1
  let x : ℚ :=
    if opts.histogramDrawMode < 2 then stop / 255 * (s.w : ℚ) + 1 / 2
    else HistogramScaling.log E.ln s.factor 255 stop / 255 * (s.w : ℚ) + 1 / 2
  DrawCmd.line x (3 / 2) x ((s.h - 2 : Int) : ℚ)

/-- The horizontal grid line of index `i` among `n` partitions; `i * h / n` is
a truncating division of `int`s. -/
def horizontalGridLine (E : Extern) (opts : Options) (s : HistogramArea) (n : Int) (i : Nat) :
    DrawCmd :=
  let pos : Int := ((i : Int) * s.h).tdiv n
  let y : ℚ :=
    if opts.histogramDrawMode = 0 then (pos : ℚ) + 1 / 2
    else (s.h : ℚ) - HistogramScaling.log E.ln s.factor (s.h : ℚ) (pos : ℚ) + 1 / 2
  DrawCmd.line (3 / 2) y ((s.w - 2 : Int) : ℚ) y

/-- The vertical lines drawn by `for (int i = 1; i < nrOfVGridPartitions; i++)`
with `nrOfVGridPartitions = 8`. -/
def verticalGridLines (E : Extern) (opts : Options) (s : HistogramArea) : List DrawCmd :=
  (List.range' 1 7).map (verticalGridLine E opts s)

/-- The horizontal lines drawn by `for (int i = 1; i < nrOfHGridPartitions; i++)`. -/
def horizontalGridLines (E : Extern) (opts : Options) (s : HistogramArea) : List DrawCmd :=
  (List.range' 1 (nrOfHGridPartitions s.h - 1).toNat).map
    (horizontalGridLine E opts s (nrOfHGridPartitions s.h))

/-- The grid of `updateBackBuffer`: vertical lines, then horizontal lines. -/
def gridLines (E : Extern) (opts : Options) (s : HistogramArea) : List DrawCmd :=
  verticalGridLines E opts s ++ horizontalGridLines E opts s

/-- The commands that `HistogramArea::updateBackBuffer` issues on the cleared
surface: none on an unrealized widget; otherwise, on the surface resized to the
window, the channel blocks when the data is valid, then the grid. -/
def updateBackBufferDraw (E : Extern) (opts : Options) (s : HistogramArea) : List DrawCmd :=
  if !s.realized then []
  else
    let s1 := s.setDrawRectangle s.winw s.winh
    (if s1.valid then (histogramCmds E s1 s1.winh).1 else []) ++ gridLines E opts s1

end HistogramArea

/-! ## `on_draw` of the two graphical components -/

/-- What `on_draw` does, in order; `copySurface` carries the value of the dirty
flag at the moment the cached surface is copied to the screen. -/
inductive DrawStep where
  | renderBackground
  | updateBackBuffer
  | copySurface (dirty : Bool)
  | renderFrame
  deriving DecidableEq, Repr

/-- Source function `HistogramArea::on_draw`, for a widget of allocated size
`width` by `height`: the new state and the steps taken. -/
def HistogramArea.on_draw (s : HistogramArea) (width height : Int) :
    HistogramArea × List DrawStep :=
  let redraw : Bool := decide (width ≠ s.oldwidth) || decide (height ≠ s.oldheight) || s.dirty
  let s1 := if redraw then s.updateBackBuffer else s
  (s1, (if redraw then [DrawStep.updateBackBuffer] else []) ++
    [DrawStep.renderBackground, DrawStep.copySurface s1.dirty, DrawStep.renderFrame])

/-- Source function `HistogramRGBArea::on_draw`: the new state and the steps taken. -/
def HistogramRGBArea.on_draw (E : Extern) (opts : Options) (s : HistogramRGBArea) :
    HistogramRGBArea × List DrawStep :=
  match s.surface with
  | some _ =>
    let s1 := if s.dirty then s.updateBackBuffer E opts (-1) (-1) (-1) else s
    (s1, [DrawStep.renderBackground] ++ (if s.dirty then [DrawStep.updateBackBuffer] else []) ++
      [DrawStep.copySurface s1.dirty, DrawStep.renderFrame])
  | none => (s, [DrawStep.renderBackground, DrawStep.renderFrame])

/-! ## The idle helper of `update` -/

/-- The helper object `HistogramAreaIdleHelper` / `HistogramRGBAreaIdleHelper`
(its `harea` pointer is the widget). -/
structure IdleHelper where
  destroyed : Bool
  pending : Int
  deriving DecidableEq, Repr

/-- A widget with its idle helper and its idle queue. The code of `update`, of
the idle callback and of the destructor is the same in `HistogramArea` and in
`HistogramRGBArea` as far as the helper is concerned, so one system describes
both. `helper` is `none` once `delete` ran; `queued` counts the callbacks
registered and not yet run; `frees` counts the executed `delete`s;
`freedHelperUses` counts accesses to the helper after its `delete`;
`deadWidgetUses` counts uses of the widget by a callback after its destructor. -/
structure IdleSystem where
  widgetAlive : Bool
  helper : Option IdleHelper
  queued : Nat
  frees : Nat
  freedHelperUses : Nat
  deadWidgetUses : Nat
  deriving DecidableEq, Repr

namespace IdleSystem

/-- State after the constructor: `destroyed = false`, `pending = 0`. -/
def init : IdleSystem :=
  { widgetAlive := true, helper := some { destroyed := false, pending := 0 }, queued := 0,
    frees := 0, freedHelperUses := 0, deadWidgetUses := 0 }

/-- The helper part of `update`: `pending++`, then `idle_register.add (func, helper)`. -/
def update (s : IdleSystem) : IdleSystem :=
  match s.helper with
  | some h => { s with helper := some { h with pending := h.pending + 1 }, queued := s.queued + 1 }
  | none => { s with freedHelperUses := s.freedHelperUses + 1, queued := s.queued + 1 }

/-- One run of the idle callback `func`, which then leaves the queue. -/
def callback (s : IdleSystem) : IdleSystem :=
  match s.helper with
  | none => { s with queued := s.queued - 1, freedHelperUses := s.freedHelperUses + 1 }
  | some h =>
    if h.destroyed then
      if h.pending = 1 then
        { s with helper := none, frees := s.frees + 1, queued := s.queued - 1 }
      else
        { s with helper := some { h with pending := h.pending - 1 }, queued := s.queued - 1 }
    else
      { s with helper := some { h with pending := h.pending - 1 }, queued := s.queued - 1,
               deadWidgetUses := if s.widgetAlive then s.deadWidgetUses
                                 else s.deadWidgetUses + 1 }

/-- Modelled from the spec: `IdleRegister::destroy` (guiutils, not in src)
leaves the callbacks already queued in place, "the callback's trampoline object
outlives the widget"; the rest is the destructor of the widget:
`if (pending) destroyed = true; else delete helper;`. -/
def destroy (s : IdleSystem) : IdleSystem :=
  match s.helper with
  | none => { s with widgetAlive := false, freedHelperUses := s.freedHelperUses + 1 }
  | some h =>
    if h.pending ≠ 0 then { s with widgetAlive := false, helper := some { h with destroyed := true } }
    else { s with widgetAlive := false, helper := none, frees := s.frees + 1 }

/-- One step of the system: `update` on a live widget, a queued callback run,
or the destruction of a live widget. -/
inductive Step : IdleSystem → IdleSystem → Prop where
  | update (s : IdleSystem) : s.widgetAlive = true → Step s s.update
  | callback (s : IdleSystem) : 0 < s.queued → Step s s.callback
  | destroy (s : IdleSystem) : s.widgetAlive = true → Step s s.destroy

/-- States reachable from the constructed widget. -/
inductive Reachable : IdleSystem → Prop where
  | init : Reachable init
  | step (s t : IdleSystem) : Reachable s → Step s t → Reachable t

/-- The state after `n` further callback runs. -/
def callbacks : Nat → IdleSystem → IdleSystem
  | 0, s => s
  | n + 1, s => callbacks n s.callback

/-- The invariant of the reachable states: no access to a freed helper and no
use of a destroyed widget so far; a live helper counts the queued callbacks,
was never freed, and is flagged `destroyed` exactly when the widget is gone; a
freed helper was freed once, after the widget, and nothing is queued. -/
def Inv (s : IdleSystem) : Prop :=
  s.freedHelperUses = 0 ∧ s.deadWidgetUses = 0 ∧
  match s.helper with
  | some h => h.pending = (s.queued : Int) ∧ s.frees = 0 ∧ h.destroyed = !s.widgetAlive
  | none => s.queued = 0 ∧ s.frees = 1 ∧ s.widgetAlive = false

end IdleSystem

/-! ## `update` and its idle callback -/

/-- The eight tables handed to `HistogramArea::update`. -/
structure Histograms where
  histRed : LUTu
  histGreen : LUTu
  histBlue : LUTu
  histLuma : LUTu
  histRedRaw : LUTu
  histGreenRaw : LUTu
  histBlueRaw : LUTu
  histChroma : LUTu

/-- Source function `HistogramArea::update`, state part: the tables are replaced and the
data is valid when `histRed` holds data (`some`), the data is invalid
otherwise (`none`). -/
def HistogramArea.update (s : HistogramArea) (data : Option Histograms) : HistogramArea :=
  match data with
  | some d =>
    { s with lhist := d.histLuma, chist := d.histChroma, rhist := d.histRed,
             ghist := d.histGreen, bhist := d.histBlue, rhistRaw := d.histRedRaw,
             ghistRaw := d.histGreenRaw, bhistRaw := d.histBlueRaw, valid := true }
  | none => { s with valid := false }

/-- The idle callback of `HistogramArea::update` on a live widget:
`setDirty (true); updateBackBuffer ();`. -/
def HistogramArea.idle (s : HistogramArea) : HistogramArea :=
  HistogramArea.updateBackBuffer { s with dirty := true }

/-- Source function `HistogramRGBArea::update`, state part. -/
def HistogramRGBArea.update (s : HistogramRGBArea) (valh rh gh bh : Int) : HistogramRGBArea :=
  if valh ≠ 0 then { s with val := valh, r := rh, g := gh, b := bh, valid := true }
  else { s with valid := false }

/-- The idle callback of `HistogramRGBArea::update` on a live widget:
`updateBackBuffer (-1, -1, -1)`. -/
def HistogramRGBArea.idle (E : Extern) (opts : Options) (s : HistogramRGBArea) :
    HistogramRGBArea :=
  s.updateBackBuffer E opts (-1) (-1) (-1)

/-! ## Construction and the operations of the panel -/

/-- Source function `HistogramArea::HistogramArea`: the member initialisers of the
constructor, the five tables of size 256 taken as empty, `factor` at the
default `10.0` of `HistogramScaling`, and a `BackBuffer` that starts dirty and
without size; the widget is not realized yet. -/
def HistogramArea.new (opts : Options) : HistogramArea where
  realized := false
  winw := 0
  winh := 0
  dirty := true
  w := 0
  h := 0
  factor := 10
  valid := false
  drawMode := opts.histogramDrawMode
  oldwidth := -1
  oldheight := -1
  needLuma := false
  needRed := true
  needGreen := true
  needBlue := true
  rawMode := false
  needChroma := false
  isPressed := false
  movingPosition := 0
  lhist := fun _ => 0
  rhist := fun _ => 0
  ghist := fun _ => 0
  bhist := fun _ => 0
  chist := fun _ => 0
  rhistRaw := fun _ => 0
  ghistRaw := fun _ => 0
  bhistRaw := fun _ => 0

/-- Source function `HistogramRGBArea::HistogramRGBArea`: the member initialisers of the
constructor, with `factor` at the default `10.0` and a `BackBuffer` that starts
dirty and without surface. -/
def HistogramRGBArea.new (opts : Options) : HistogramRGBArea where
  realized := false
  winw := 0
  winh := 0
  dirty := true
  surface := none
  factor := 10
  val := 0
  r := 0
  g := 0
  b := 0
  valid := false
  needRed := true
  needGreen := true
  needBlue := true
  needLuma := false
  rawMode := false
  showMode := opts.histogramBar
  barDisplayed := opts.histogramBar
  needChroma := false

namespace HistogramPanel

/-- Source function `HistogramPanel::HistogramPanel`: the two children, the grid that
holds the histogram area and, when `options.histogramBar`, the readout bar, and
the initial state of the buttons. -/
def new (opts : Options) : HistogramPanel where
  histogramArea := HistogramArea.new opts
  histogramRGBArea := HistogramRGBArea.new opts
  gfxGrid :=
    if opts.histogramBar then (Container.add ⟨[]⟩ .histogramArea).add .histogramRGBArea
    else Container.add ⟨[]⟩ .histogramArea
  options := opts
  showRed := true
  showGreen := true
  showBlue := true
  showValue := false
  showChro := false
  showRAW := false
  showBAR := opts.histogramBar
  valueSensitive := true
  chroSensitive := true
  modeImage := modeImageFor opts.histogramDrawMode

/-- Source function `HistogramPanel::red_toggled`: the image follows the button, then
`rgbv_toggled`. -/
def red_toggled (E : Extern) (p : HistogramPanel) : HistogramPanel := p.rgbv_toggled E

/-- Source function `HistogramPanel::green_toggled`. -/
def green_toggled (E : Extern) (p : HistogramPanel) : HistogramPanel := p.rgbv_toggled E

/-- Source function `HistogramPanel::blue_toggled`. -/
def blue_toggled (E : Extern) (p : HistogramPanel) : HistogramPanel := p.rgbv_toggled E

/-- Source function `HistogramPanel::value_toggled`. -/
def value_toggled (E : Extern) (p : HistogramPanel) : HistogramPanel := p.rgbv_toggled E

/-- Source function `HistogramPanel::chro_toggled`. -/
def chro_toggled (E : Extern) (p : HistogramPanel) : HistogramPanel := p.rgbv_toggled E

/-- Source function `HistogramPanel::raw_toggled`: the luma and chroma buttons are
insensitive exactly while the raw button is active, then `rgbv_toggled`. -/
def raw_toggled (E : Extern) (p : HistogramPanel) : HistogramPanel :=
  rgbv_toggled E
    (if p.showRAW then { p with valueSensitive := false, chroSensitive := false }
     else { p with valueSensitive := true, chroSensitive := true })

/-- Source function `HistogramPanel::bar_toggled`. -/
def bar_toggled (E : Extern) (p : HistogramPanel) : HistogramPanel := p.rgbv_toggled E

/-- Source function `HistogramPanel::resized`, for a panel of height `height`. -/
def resized (E : Extern) (p : HistogramPanel) (height : Int) : HistogramPanel :=
  { p with histogramArea := p.histogramArea.updateBackBuffer,
           histogramRGBArea := p.histogramRGBArea.updateBackBuffer E p.options (-1) (-1) (-1),
           options := { p.options with histogramHeight := height } }

/-- An operation on the panel or on its histogram area. A toggle operation is
the user's click: the button changes its `get_active` state and its handler
runs. The two realize operations are the toolkit realizing a child with a
window of the given size; the draw operations are `on_draw` of a child; the
update and idle operations are `update` of a child and its idle callback. A motion whose factor would be NaN has no successor
among the states, whose factor is a number, and leaves the panel where it is. -/
inductive Op where
  | redToggled
  | greenToggled
  | blueToggled
  | valueToggled
  | chroToggled
  | rawToggled
  | barToggled
  | modeReleased
  | buttonPress (x : ℚ) (type : EventType) (button : Int)
  | buttonRelease
  | motion (x : ℚ) (width : Int)
  | setHistRGBInvalid
  | pointerMoved (validPos : Bool) (r g b : Int)
  | resized (height : Int)
  | realizeArea (winw winh : Int)
  | realizeBar (winw winh : Int)
  | drawArea (width height : Int)
  | drawBar
  | updateArea (data : Option Histograms)
  | idleArea
  | updateBar (valh rh gh bh : Int)
  | idleBar

/-- Effect of an operation. -/
def apply (E : Extern) (p : HistogramPanel) : Op → HistogramPanel
  | .redToggled => red_toggled E { p with showRed := !p.showRed }
  | .greenToggled => green_toggled E { p with showGreen := !p.showGreen }
  | .blueToggled => blue_toggled E { p with showBlue := !p.showBlue }
  | .valueToggled => value_toggled E { p with showValue := !p.showValue }
  | .chroToggled => chro_toggled E { p with showChro := !p.showChro }
  | .rawToggled => raw_toggled E { p with showRAW := !p.showRAW }
  | .barToggled => bar_toggled E { p with showBAR := !p.showBAR }
  | .modeReleased => p.mode_released E
  | .buttonPress x type button => p.on_button_press_event x type button
  | .buttonRelease => { p with histogramArea := p.histogramArea.on_button_release_event }
  | .motion x width => (p.on_motion_notify_event x width).getD p
  | .setHistRGBInvalid => p.setHistRGBInvalid E
  | .pointerMoved validPos r g b => p.pointerMoved E validPos r g b
  | .resized height => p.resized E height
  | .realizeArea winw winh =>
    { p with histogramArea := { p.histogramArea with realized := true, winw := winw, winh := winh } }
  | .realizeBar winw winh =>
    { p with histogramRGBArea :=
        { p.histogramRGBArea with realized := true, winw := winw, winh := winh } }
  | .drawArea width height =>
    { p with histogramArea := (p.histogramArea.on_draw width height).1 }
  | .drawBar => { p with histogramRGBArea := (p.histogramRGBArea.on_draw E p.options).1 }
  | .updateArea data => { p with histogramArea := p.histogramArea.update data }
  | .idleArea => { p with histogramArea := p.histogramArea.idle }
  | .updateBar valh rh gh bh =>
    { p with histogramRGBArea := p.histogramRGBArea.update valh rh gh bh }
  | .idleBar => { p with histogramRGBArea := p.histogramRGBArea.idle E p.options }

/-- The panel constructed from `opts` after a sequence of operations. -/
def run (E : Extern) (opts : Options) (ops : List Op) : HistogramPanel :=
  ops.foldl (apply E) (new opts)

end HistogramPanel

namespace HistogramArea

theorem raise_eq (b : Bool) (x acc : Nat) :
    (if b && decide (x > acc) then x else acc) = max acc (if b then x else 0) := by
  cases b <;> simp
  split_ifs <;> omega

theorem sup_active_eq (s : HistogramArea) (f : Channel → Nat) :
    ((Finset.univ.filter fun c => s.flag c = true).sup f) =
      max (if s.needLuma then f .luma else 0) (max (if s.needChroma then f .chroma else 0)
        (max (if s.needRed then f .red else 0) (max (if s.needGreen then f .green else 0)
          (if s.needBlue then f .blue else 0)))) := by
  have h1 : ((Finset.univ.filter fun c => s.flag c = true).sup f) =
      Finset.univ.sup fun c => if s.flag c = true then f c else 0 := by
    apply le_antisymm
    · refine Finset.sup_le fun c hc => ?_
      have hfc : s.flag c = true := (Finset.mem_filter.mp hc).2
      have hle := Finset.le_sup (f := fun c => if s.flag c = true then f c else 0)
        (Finset.mem_univ c)
      simpa [hfc] using hle
    · refine Finset.sup_le fun c _ => ?_
      by_cases hfc : s.flag c = true
      · simp only [hfc, if_true]
        exact Finset.le_sup (f := f) (Finset.mem_filter.mpr ⟨Finset.mem_univ c, hfc⟩)
      · simp [hfc]
  have huniv : (Finset.univ : Finset Channel) =
      {Channel.luma, Channel.chroma, Channel.red, Channel.green, Channel.blue} := by
    decide
  rw [h1, huniv]
  simp only [Finset.sup_insert, Finset.sup_singleton, flag]

theorem scanBucket_eq (s : HistogramArea) (acc i : Nat) :
    s.scanBucket acc i =
      max acc ((Finset.univ.filter fun c => s.flag c = true).sup fun c => s.working c i) := by
  rw [sup_active_eq]
  simp only [scanBucket, raise_eq, working, max_assoc]

theorem foldl_scanBucket (s : HistogramArea) (l : List Nat) (acc : Nat) :
    l.foldl s.scanBucket acc =
      max acc (l.toFinset.sup fun i =>
        (Finset.univ.filter fun c => s.flag c = true).sup fun c => s.working c i) := by
  induction l generalizing acc with
  | nil => simp
  | cons i l ih =>
    simp only [List.foldl_cons, ih, scanBucket_eq, List.toFinset_cons, Finset.sup_insert]
    rw [max_assoc]

theorem range_toFinset : (List.range' 1 254).toFinset = Finset.Icc 1 254 := by
  ext i
  simp only [List.mem_toFinset, List.mem_range', Finset.mem_Icc]
  constructor
  · rintro ⟨k, hk, rfl⟩
    omega
  · intro h
    exact ⟨i - 1, by omega, by omega⟩

theorem fullhistheight_eq (s : HistogramArea) : s.fullhistheight = s.activeMax := by
  unfold fullhistheight activeMax
  rw [foldl_scanBucket, range_toFinset]
  simp

theorem working_lt (s : HistogramArea) (bound : Nat) (hpos : 0 < bound)
    (hb : s.CountsBelow bound) (c : Channel) (i : Nat) : s.working c i < bound := by
  by_cases hi : i < 256
  · obtain ⟨h1, h2, h3, h4, h5, h6, h7, h8⟩ := hb i hi
    have hdiv : ∀ x : Nat, x < bound → x / s.scale < bound := fun x hx =>
      lt_of_le_of_lt (Nat.div_le_self x s.scale) hx
    cases c <;>
      simp only [working, lhisttemp, chisttemp, rhtemp, ghtemp, bhtemp, rh, gh, bh, hi, if_true] <;>
      split_ifs <;> first | assumption | exact hdiv _ (by assumption)
  · cases c <;> simp [working, lhisttemp, chisttemp, rhtemp, ghtemp, bhtemp, hi, hpos]

theorem activeMax_lt (s : HistogramArea) (bound : Nat) (hpos : 0 < bound)
    (hb : s.CountsBelow bound) : s.activeMax < bound := by
  unfold activeMax
  rw [Finset.sup_lt_iff (by simpa using hpos)]
  intro i _
  rw [Finset.sup_lt_iff (by simpa using hpos)]
  intro c _
  exact s.working_lt bound hpos hb c i

theorem toInt_of_lt (u : Nat) (h : u < 2 ^ 31) : toInt u = (u : Int) := by
  have h1 : u % 2 ^ 32 = u := Nat.mod_eq_of_lt (by omega)
  unfold toInt
  rw [h1, if_pos h]

theorem realhistheight_eq_max (s : HistogramArea) (winh : Int)
    (hb : s.CountsBelow (2 ^ 31)) :
    s.realhistheight winh = max (winh - 2) (s.activeMax : Int) := by
  have hlt := s.activeMax_lt (2 ^ 31) (by norm_num) hb
  unfold realhistheight
  rw [fullhistheight_eq, toInt_of_lt _ hlt]
  simp only
  split_ifs with h
  · exact (max_eq_left (le_of_lt h)).symm
  · exact (max_eq_right (not_lt.mp h)).symm

theorem activeMax_congr (s t : HistogramArea) (h : s.SameInnerBuckets t) :
    s.activeMax = t.activeMax := by
  obtain ⟨hl, hc, hr, hg, hbl, hraw, hbk⟩ := h
  have hflag : ∀ c, s.flag c = t.flag c := by
    intro c
    cases c <;> simp [flag, hl, hc, hr, hg, hbl]
  unfold activeMax
  refine Finset.sup_congr rfl fun i hi => ?_
  obtain ⟨h1, h254⟩ := Finset.mem_Icc.mp hi
  obtain ⟨e1, e2, e3, e4, e5, e6, e7, e8⟩ := hbk i h1 h254
  have hw : ∀ c, s.working c i = t.working c i := by
    intro c
    cases c <;>
      simp only [working, lhisttemp, chisttemp, rhtemp, ghtemp, bhtemp, rh, gh, bh, scale,
        hl, hc, hr, hg, hbl, hraw] <;>
      split_ifs <;> simp only [e1, e2, e3, e4, e5, e6, e7, e8]
  simp only [hflag, hw]

theorem activeMax_allZero (s : HistogramArea) (h : s.AllZero) : s.activeMax = 0 := by
  unfold activeMax
  apply Nat.eq_zero_of_le_zero
  refine Finset.sup_le fun i _ => Finset.sup_le fun c _ => ?_
  by_cases hi : i < 256
  · obtain ⟨e1, e2, e3, e4, e5, e6, e7, e8⟩ := h i hi
    cases c <;>
      simp [working, lhisttemp, chisttemp, rhtemp, ghtemp, bhtemp, rh, gh, bh,
        e1, e2, e3, e4, e5, e6, e7, e8] <;> split_ifs <;> simp [*]
  · cases c <;> simp [working, lhisttemp, chisttemp, rhtemp, ghtemp, bhtemp, hi]

theorem realhistheight_allZero (s : HistogramArea) (winh : Int) (h : s.AllZero) :
    s.realhistheight winh = max (winh - 2) 0 := by
  unfold realhistheight
  rw [fullhistheight_eq, activeMax_allZero s h]
  have h0 : toInt 0 = 0 := by decide
  rw [h0]
  simp only
  split_ifs with h1
  · exact (max_eq_left (le_of_lt h1)).symm
  · exact (max_eq_right (not_lt.mp h1)).symm

end HistogramArea

theorem sampleArea_countsBelow : sampleArea.CountsBelow (2 ^ 31) := by
  intro i _
  simp only [sampleArea, emptyArea]
  refine ⟨?_, ?_, ?_, ?_, ?_, ?_, ?_, ?_⟩ <;> (try split_ifs) <;> norm_num

theorem emptyArea_allZero : emptyArea.AllZero := by
  intro i _
  simp [emptyArea]

/-! ## C1: the display scale -/

/-- C1 as stated fails at its last clause: with an all-zero histogram and a
window of height 1 the display scale is 0, not `winh - 2 = -1`. -/
theorem realhistheight_allZero_small_window :
    emptyArea.AllZero ∧ emptyArea.CountsBelow (2 ^ 31) ∧
      emptyArea.realhistheight 1 = 0 ∧ emptyArea.realhistheight 1 ≠ 1 - 2 := by
  have h0 : emptyArea.realhistheight 1 = 0 := by
    rw [HistogramArea.realhistheight_allZero _ _ emptyArea_allZero]
    decide
  refine ⟨emptyArea_allZero, ?_, h0, ?_⟩
  · intro i _
    simp [emptyArea]
  · rw [h0]
    decide

/-- C1 (amended): when all counts are below `2^31`, for all flags and every
window height `winh`, `realhistheight = max (winh - 2) M` with `M` the largest
working count over the buckets `1..254` of the channels whose flag is set;
changing the buckets 0 or 255 of any table leaves `realhistheight` unchanged;
and an all-zero histogram gives `max (winh - 2) 0`, which is `winh - 2` as soon
as `winh >= 2`. -/
theorem realhistheight_scale (s : HistogramArea) (winh : Int)
    (hb : s.CountsBelow (2 ^ 31)) :
    s.realhistheight winh = max (winh - 2) (s.activeMax : Int) ∧
    (∀ t : HistogramArea, s.SameInnerBuckets t → t.realhistheight winh = s.realhistheight winh) ∧
    (s.AllZero → s.realhistheight winh = max (winh - 2) 0) ∧
    (s.AllZero → 2 ≤ winh → s.realhistheight winh = winh - 2) := by
  refine ⟨s.realhistheight_eq_max winh hb, ?_, ?_, ?_⟩
  · intro t hst
    unfold HistogramArea.realhistheight
    rw [HistogramArea.fullhistheight_eq, HistogramArea.fullhistheight_eq,
      HistogramArea.activeMax_congr s t hst]
  · exact fun hz => s.realhistheight_allZero winh hz
  · intro hz hw
    rw [s.realhistheight_allZero winh hz]
    exact max_eq_left (by omega)

theorem sampleArea_sameInner : sampleArea.SameInnerBuckets sampleAreaUnclipped := by
  refine ⟨rfl, rfl, rfl, rfl, rfl, rfl, ?_⟩
  intro i h1 h254
  have h0 : i ≠ 0 := by omega
  have h255 : i ≠ 255 := by omega
  simp [sampleAreaUnclipped, h0, h255]

/-- C1 at `sampleArea` with a window of height 100: all counts are below
`2^31` and the scale is `max 98 M`; `sampleAreaUnclipped`, which differs at the
buckets 0 and 255 of the red table, has the same scale; and the all-zero
`emptyArea` has scale 98 in that window. -/
theorem realhistheight_scale_witness :
    sampleArea.CountsBelow (2 ^ 31) ∧
    sampleArea.realhistheight 100 = max (100 - 2) (sampleArea.activeMax : Int) ∧
    sampleArea.SameInnerBuckets sampleAreaUnclipped ∧
    sampleAreaUnclipped.realhistheight 100 = sampleArea.realhistheight 100 ∧
    emptyArea.AllZero ∧ emptyArea.realhistheight 100 = 100 - 2 :=
  have h := realhistheight_scale sampleArea 100 sampleArea_countsBelow
  have hz : emptyArea.CountsBelow (2 ^ 31) := fun i hi => by
    have h0 := emptyArea_allZero i hi
    simp only [h0]
    norm_num
  ⟨sampleArea_countsBelow, h.1, sampleArea_sameInner,
    h.2.1 sampleAreaUnclipped sampleArea_sameInner, emptyArea_allZero,
    (realhistheight_scale emptyArea 100 hz).2.2.2 emptyArea_allZero (by decide)⟩

/-! ## C2: raw mode divides the drawn counts by 8 -/

/-- C2: for every bucket `i` in `0..255` and each active red, green or blue
channel, the working count that is drawn is the raw table's bucket divided by
8 in raw mode and the non-raw table's bucket unchanged otherwise; so a raw-mode
state and a non-raw state holding the same counts display `c / 8` and `c`. -/
theorem drawn_count_raw_div_eight (s : HistogramArea) (i : Nat) (hi : i < 256) :
    (s.needRed = true →
      s.rhchanged i = (if s.rawMode then s.rhistRaw i / 8 else s.rhist i) ∧
      s.rhtemp i = s.rhchanged i) ∧
    (s.needGreen = true →
      s.ghchanged i = (if s.rawMode then s.ghistRaw i / 8 else s.ghist i) ∧
      s.ghtemp i = s.ghchanged i) ∧
    (s.needBlue = true →
      s.bhchanged i = (if s.rawMode then s.bhistRaw i / 8 else s.bhist i) ∧
      s.bhtemp i = s.bhchanged i) ∧
    (∀ t : HistogramArea, s.rawMode = true → t.rawMode = false →
      (s.needRed = true → t.needRed = true → s.rhistRaw i = t.rhist i →
        s.rhchanged i = t.rhchanged i / 8) ∧
      (s.needGreen = true → t.needGreen = true → s.ghistRaw i = t.ghist i →
        s.ghchanged i = t.ghchanged i / 8) ∧
      (s.needBlue = true → t.needBlue = true → s.bhistRaw i = t.bhist i →
        s.bhchanged i = t.bhchanged i / 8)) := by
  refine ⟨?_, ?_, ?_, ?_⟩
  · intro h
    cases hr : s.rawMode <;>
      simp [HistogramArea.rhchanged, HistogramArea.rhtemp, HistogramArea.rh,
        HistogramArea.scale, hi, h, hr]
  · intro h
    cases hr : s.rawMode <;>
      simp [HistogramArea.ghchanged, HistogramArea.ghtemp, HistogramArea.gh,
        HistogramArea.scale, hi, h, hr]
  · intro h
    cases hr : s.rawMode <;>
      simp [HistogramArea.bhchanged, HistogramArea.bhtemp, HistogramArea.bh,
        HistogramArea.scale, hi, h, hr]
  · intro t hs ht
    refine ⟨?_, ?_, ?_⟩ <;> intro h1 h2 h3
    · simp [HistogramArea.rhchanged, HistogramArea.rh, HistogramArea.scale, hi, h1, h2, h3,
        hs, ht]
    · simp [HistogramArea.ghchanged, HistogramArea.gh, HistogramArea.scale, hi, h1, h2, h3,
        hs, ht]
    · simp [HistogramArea.bhchanged, HistogramArea.bh, HistogramArea.scale, hi, h1, h2, h3,
        hs, ht]

/-- C2 at bucket 10 of `sampleAreaRaw`: the raw count 4001 is drawn as 500. -/
theorem drawn_count_raw_div_eight_witness :
    (10 : Nat) < 256 ∧ sampleAreaRaw.needRed = true ∧ sampleAreaRaw.rhistRaw 10 = 4001 ∧
      sampleAreaRaw.rhchanged 10 = 500 := by
  have h := (drawn_count_raw_div_eight sampleAreaRaw 10 (by decide)).1 rfl
  refine ⟨by decide, rfl, by simp [sampleAreaRaw, sampleArea], ?_⟩
  rw [h.1]
  simp [sampleAreaRaw, sampleArea]

/-! ## C3: corner marks -/

namespace HistogramArea

theorem drawMarks_rects (data : LUTu) (scale : ℚ) (hsize : Int) (m : MarkState) :
    (drawMarks data scale hsize m).rects =
      m.rects ++ (if (data 0 : ℚ) > scale then [(⟨0, 8 * m.ui, 8, 8⟩ : Rect)] else []) ++
        (if (data 255 : ℚ) > scale then [(⟨hsize - 8, 8 * m.oi, 8, 8⟩ : Rect)] else []) := by
  unfold drawMarks
  by_cases h0 : (data 0 : ℚ) > scale <;> by_cases h255 : (data 255 : ℚ) > scale <;>
    simp [h0, h255, mul_comm]

theorem drawMarks_ui (data : LUTu) (scale : ℚ) (hsize : Int) (m : MarkState) :
    (drawMarks data scale hsize m).ui = m.ui + (if (data 0 : ℚ) > scale then 1 else 0) := by
  unfold drawMarks
  by_cases h0 : (data 0 : ℚ) > scale <;> by_cases h255 : (data 255 : ℚ) > scale <;>
    simp [h0, h255]

theorem drawMarks_oi (data : LUTu) (scale : ℚ) (hsize : Int) (m : MarkState) :
    (drawMarks data scale hsize m).oi = m.oi + (if (data 255 : ℚ) > scale then 1 else 0) := by
  unfold drawMarks
  by_cases h0 : (data 0 : ℚ) > scale <;> by_cases h255 : (data 255 : ℚ) > scale <;>
    simp [h0, h255]

theorem foldl_drawMarks_counters (scale : ℚ) (hsize : Int) (l : List LUTu) (m : MarkState) :
    (l.foldl (fun m d => drawMarks d scale hsize m) m).ui = m.ui + (exceeding scale 0 l : Int) ∧
    (l.foldl (fun m d => drawMarks d scale hsize m) m).oi =
      m.oi + (exceeding scale 255 l : Int) := by
  induction l generalizing m with
  | nil => simp [exceeding]
  | cons d l ih =>
    obtain ⟨h1, h2⟩ := ih (drawMarks d scale hsize m)
    simp only [List.foldl_cons, h1, h2, drawMarks_ui, drawMarks_oi, exceeding, List.countP_cons]
    constructor
    · by_cases h0 : (d 0 : ℚ) > scale
      · simp [h0]
        ring
      · simp [h0]
    · by_cases h0 : (d 255 : ℚ) > scale
      · simp [h0]
        ring
      · simp [h0]

theorem marksFor_counters (scale : ℚ) (hsize : Int) (l : List LUTu) :
    (marksFor scale hsize l).ui = (exceeding scale 0 l : Int) ∧
    (marksFor scale hsize l).oi = (exceeding scale 255 l : Int) := by
  have h := foldl_drawMarks_counters scale hsize l { rects := [], ui := 0, oi := 0 }
  simpa [marksFor] using h

theorem marksFor_snoc (scale : ℚ) (hsize : Int) (pre : List LUTu) (d : LUTu) :
    marksFor scale hsize (pre ++ [d]) = drawMarks d scale hsize (marksFor scale hsize pre) := by
  simp [marksFor, List.foldl_append]

theorem updateBackBufferMarks_eq (s : HistogramArea) (winh : Int) :
    s.updateBackBufferMarks winh =
      marksFor ((s.realhistheight winh : Int) : ℚ) s.w s.drawnTables := by
  unfold updateBackBufferMarks drawnTables marksFor
  cases s.needLuma <;> cases s.needChroma <;> cases s.needRed <;> cases s.needGreen <;>
    cases s.needBlue <;> cases s.rawMode <;> rfl

theorem exceeding_append (scale : ℚ) (b : Nat) (l1 l2 : List LUTu) :
    exceeding scale b (l1 ++ l2) = exceeding scale b l1 + exceeding scale b l2 := by
  simp [exceeding, List.countP_append]

theorem exceeding_cons_pos (scale : ℚ) (b : Nat) (d : LUTu) (l : List LUTu)
    (h : (d b : ℚ) > scale) : exceeding scale b (d :: l) = exceeding scale b l + 1 := by
  simp [exceeding, List.countP_cons, h]

theorem stacked_disjoint (x : Int) (scale : ℚ) (b : Nat) (pre mid : List LUTu) (d : LUTu)
    (h : (d b : ℚ) > scale) :
    Rect.Disjoint ⟨x, 8 * (exceeding scale b pre : Int), 8, 8⟩
      ⟨x, 8 * (exceeding scale b (pre ++ d :: mid) : Int), 8, 8⟩ := by
  rw [exceeding_append, exceeding_cons_pos _ _ _ _ h]
  unfold Rect.Disjoint
  simp only
  push_cast
  omega

end HistogramArea

/-- C3: over the `drawMarks` calls of one `updateBackBuffer` (counters starting
at 0), the call for a drawn table `d` appends a left square exactly when
`d[0] > realhistheight`, at `(0, 8k)` with `k` the number of earlier drawn
tables that exceeded at bucket 0, and a right square exactly when
`d[255] > realhistheight`, at `(hsize - 8, 8k)` likewise; two squares of the
same corner never overlap; and the final `ui` and `oi` are the numbers of drawn
tables exceeding the scale at bucket 0 and at bucket 255. -/
theorem corner_marks (s : HistogramArea) (winh : Int) :
    let R : ℚ := ((s.realhistheight winh : Int) : ℚ)
    s.updateBackBufferMarks winh = HistogramArea.marksFor R s.w s.drawnTables ∧
    (s.updateBackBufferMarks winh).ui = (HistogramArea.exceeding R 0 s.drawnTables : Int) ∧
    (s.updateBackBufferMarks winh).oi = (HistogramArea.exceeding R 255 s.drawnTables : Int) ∧
    (∀ pre d post, s.drawnTables = pre ++ d :: post →
      (HistogramArea.marksFor R s.w (pre ++ [d])).rects =
        (HistogramArea.marksFor R s.w pre).rects ++
          (if (d 0 : ℚ) > R then
            [(⟨0, 8 * (HistogramArea.exceeding R 0 pre : Int), 8, 8⟩ : Rect)] else []) ++
          (if (d 255 : ℚ) > R then
            [(⟨s.w - 8, 8 * (HistogramArea.exceeding R 255 pre : Int), 8, 8⟩ : Rect)]
           else [])) ∧
    (∀ pre d mid e post, s.drawnTables = pre ++ d :: mid ++ e :: post →
      ((d 0 : ℚ) > R → (e 0 : ℚ) > R →
        Rect.Disjoint ⟨0, 8 * (HistogramArea.exceeding R 0 pre : Int), 8, 8⟩
          ⟨0, 8 * (HistogramArea.exceeding R 0 (pre ++ d :: mid) : Int), 8, 8⟩) ∧
      ((d 255 : ℚ) > R → (e 255 : ℚ) > R →
        Rect.Disjoint ⟨s.w - 8, 8 * (HistogramArea.exceeding R 255 pre : Int), 8, 8⟩
          ⟨s.w - 8, 8 * (HistogramArea.exceeding R 255 (pre ++ d :: mid) : Int), 8, 8⟩)) := by
  intro R
  have hc := HistogramArea.marksFor_counters R s.w s.drawnTables
  refine ⟨s.updateBackBufferMarks_eq winh, ?_, ?_, ?_, ?_⟩
  · rw [s.updateBackBufferMarks_eq winh]
    exact hc.1
  · rw [s.updateBackBufferMarks_eq winh]
    exact hc.2
  · intro pre d post _
    have hp := HistogramArea.marksFor_counters R s.w pre
    rw [HistogramArea.marksFor_snoc, HistogramArea.drawMarks_rects, hp.1, hp.2]
  · intro pre d mid e post _
    exact ⟨fun hd _ => HistogramArea.stacked_disjoint 0 R 0 pre mid d hd,
      fun hd _ => HistogramArea.stacked_disjoint (s.w - 8) R 255 pre mid d hd⟩

theorem sampleArea_activeMax : sampleArea.activeMax = 500 := by
  apply le_antisymm
  · unfold HistogramArea.activeMax
    refine Finset.sup_le fun i hi => Finset.sup_le fun c _ => ?_
    obtain ⟨h1, h254⟩ := Finset.mem_Icc.mp hi
    have hi256 : i < 256 := by omega
    cases c <;>
      simp [HistogramArea.working, HistogramArea.lhisttemp, HistogramArea.chisttemp,
        HistogramArea.rhtemp, HistogramArea.ghtemp, HistogramArea.bhtemp, HistogramArea.rh,
        HistogramArea.gh, HistogramArea.bh, HistogramArea.scale, sampleArea, emptyArea, hi256] <;>
      (try split_ifs) <;> omega
  · have h1 : sampleArea.working .red 10 ≤
        (Finset.univ.filter fun c => sampleArea.flag c = true).sup
          fun c => sampleArea.working c 10 :=
      Finset.le_sup (f := fun c => sampleArea.working c 10)
        (Finset.mem_filter.mpr ⟨Finset.mem_univ _, rfl⟩)
    have h2 := Finset.le_sup
      (f := fun i => (Finset.univ.filter fun c => sampleArea.flag c = true).sup
        fun c => sampleArea.working c i)
      (show 10 ∈ Finset.Icc 1 254 by decide)
    have h3 : sampleArea.working .red 10 = 500 := by
      simp [HistogramArea.working, HistogramArea.rhtemp, HistogramArea.rh,
        HistogramArea.scale, sampleArea, emptyArea]
    rw [h3] at h1
    exact le_trans h1 h2

theorem sampleArea_realhistheight : sampleArea.realhistheight 100 = 500 := by
  rw [HistogramArea.realhistheight_eq_max _ _ sampleArea_countsBelow, sampleArea_activeMax]
  decide

theorem sampleArea_drawnTables :
    sampleArea.drawnTables =
      [sampleArea.lhist] ++ sampleArea.rhchanged :: [] ++
        sampleArea.ghchanged :: [sampleArea.bhchanged] :=
  rfl

theorem sampleArea_drawnTables_split :
    sampleArea.drawnTables =
      [sampleArea.lhist] ++ sampleArea.rhchanged :: [sampleArea.ghchanged, sampleArea.bhchanged] :=
  rfl

theorem sampleArea_red_clipped :
    ((sampleArea.rhchanged 0 : Nat) : ℚ) > 500 ∧ ((sampleArea.rhchanged 255 : Nat) : ℚ) > 500 ∧
      ((sampleArea.ghchanged 0 : Nat) : ℚ) > 500 := by
  refine ⟨?_, ?_, ?_⟩ <;>
    simp [HistogramArea.rhchanged, HistogramArea.rh, HistogramArea.ghchanged, HistogramArea.gh,
      HistogramArea.scale, sampleArea, emptyArea] <;> norm_num

/-- C3 at `sampleArea` (window height 100, scale 500): the luma table is drawn
first and exceeds nowhere; the red table, clipped at both ends, then adds the
first left square at `(0, 0)` and the first right square at `(392, 0)`; the
green table, clipped at bucket 0, has its left square at `(0, 8)`, disjoint
from the red one. -/
theorem corner_marks_witness :
    sampleArea.drawnTables =
      [sampleArea.lhist] ++ sampleArea.rhchanged :: [sampleArea.ghchanged, sampleArea.bhchanged] ∧
    (HistogramArea.marksFor 500 400 ([sampleArea.lhist] ++ [sampleArea.rhchanged])).rects =
      (HistogramArea.marksFor 500 400 [sampleArea.lhist]).rects ++
        [(⟨0, 0, 8, 8⟩ : Rect)] ++ [(⟨392, 0, 8, 8⟩ : Rect)] ∧
    Rect.Disjoint ⟨0, 0, 8, 8⟩ ⟨0, 8, 8, 8⟩ := by
  have hall := corner_marks sampleArea 100
  have h := hall.2.2.2.1 [sampleArea.lhist] sampleArea.rhchanged
    [sampleArea.ghchanged, sampleArea.bhchanged] sampleArea_drawnTables_split
  have hd := (hall.2.2.2.2 [sampleArea.lhist] sampleArea.rhchanged [] sampleArea.ghchanged
    [sampleArea.bhchanged] sampleArea_drawnTables).1
  rw [sampleArea_realhistheight] at h hd
  have hw : sampleArea.w = 400 := rfl
  have h500 : (((500 : Int)) : ℚ) = 500 := by norm_num
  rw [h500] at h hd
  obtain ⟨r0, r255, g0⟩ := sampleArea_red_clipped
  have e0 : HistogramArea.exceeding (500 : ℚ) 0 [sampleArea.lhist] = 0 := by
    simp [HistogramArea.exceeding, sampleArea, emptyArea]
  have e255 : HistogramArea.exceeding (500 : ℚ) 255 [sampleArea.lhist] = 0 := by
    simp [HistogramArea.exceeding, sampleArea, emptyArea]
  have e1 : HistogramArea.exceeding (500 : ℚ) 0
      ([sampleArea.lhist] ++ sampleArea.rhchanged :: []) = 1 := by
    rw [HistogramArea.exceeding_append, e0, HistogramArea.exceeding_cons_pos _ _ _ _ r0]
    rfl
  refine ⟨sampleArea_drawnTables_split, ?_, ?_⟩
  · simp only [hw, e0, e255] at h
    rw [if_pos r0, if_pos r255] at h
    simpa using h
  · have hd' := hd r0 g0
    rw [e0, e1] at hd'
    simpa using hd'

/-! ## C4: the zoom factor stays in `[1, 100]` -/

namespace HistogramArea

end HistogramArea

namespace HistogramPanel

theorem rgbv_toggled_drawMode (E : Extern) (p : HistogramPanel) :
    (p.rgbv_toggled E).options.histogramDrawMode = p.options.histogramDrawMode := by
  simp only [rgbv_toggled, HistogramRGBArea.updateOptions]
  split_ifs <;> rfl

theorem cycleStep_drawMode (E : Extern) (p : HistogramPanel) (step : CycleStep) :
    (p.cycleStep E step).options.histogramDrawMode =
      (p.options.histogramDrawMode + 1).tmod 3 := by
  cases step with
  | modeReleased =>
    simp only [cycleStep, mode_released, rgbv_toggled_drawMode]
  | doubleClick x =>
    simp [cycleStep, on_button_press_event, HistogramArea.on_button_press_event,
      toggle_button_mode]

theorem tmod_succ_of_mode (m : Int) (hm : m = 0 ∨ m = 1 ∨ m = 2) :
    ((m + 1).tmod 3 = 0 ∨ (m + 1).tmod 3 = 1 ∨ (m + 1).tmod 3 = 2) ∧
      (m + 1).tmod 3 = (m + 1) % 3 := by
  rcases hm with h | h | h <;> subst h <;> decide

theorem cycle_drawMode (E : Extern) (steps : List CycleStep) :
    ∀ p : HistogramPanel,
      (p.options.histogramDrawMode = 0 ∨ p.options.histogramDrawMode = 1 ∨
        p.options.histogramDrawMode = 2) →
      (p.cycle E steps).options.histogramDrawMode =
        (p.options.histogramDrawMode + (steps.length : Int)) % 3 := by
  induction steps with
  | nil =>
    intro p hm
    rcases hm with h | h | h <;> simp [cycle, h]
  | cons step rest ih =>
    intro p hm
    have hstep := cycleStep_drawMode E p step
    obtain ⟨hrange, hmod⟩ := tmod_succ_of_mode _ hm
    have h := ih (p.cycleStep E step) (by rw [hstep]; exact hrange)
    have hc : p.cycle E (step :: rest) = (p.cycleStep E step).cycle E rest := rfl
    rw [hc, h, hstep, hmod]
    simp only [List.length_cons]
    push_cast
    omega

end HistogramPanel

/-- C5: from a draw mode `m` in `{0, 1, 2}`, after any sequence of `n` cycle
invocations (each the mode button released or a left double click on the
histogram area) `options.histogramDrawMode` is `(m + n) mod 3`; it stays in
`{0, 1, 2}`, and any three invocations restore `m`. -/
theorem draw_mode_cycle (E : Extern) (p : HistogramPanel)
    (steps : List HistogramPanel.CycleStep)
    (hm : p.options.histogramDrawMode = 0 ∨ p.options.histogramDrawMode = 1 ∨
      p.options.histogramDrawMode = 2) :
    (p.cycle E steps).options.histogramDrawMode =
      (p.options.histogramDrawMode + (steps.length : Int)) % 3 ∧
    (0 ≤ (p.cycle E steps).options.histogramDrawMode ∧
      (p.cycle E steps).options.histogramDrawMode ≤ 2) ∧
    (steps.length = 3 →
      (p.cycle E steps).options.histogramDrawMode = p.options.histogramDrawMode) := by
  have h := HistogramPanel.cycle_drawMode E steps p hm
  refine ⟨h, ?_, ?_⟩
  · rw [h]
    omega
  · intro h3
    rw [h, h3]
    rcases hm with h0 | h0 | h0 <;> rw [h0] <;> decide

/-- C5 at `samplePanel` (mode 0) with four invocations: the mode is 1. -/
theorem draw_mode_cycle_witness :
    (samplePanel.options.histogramDrawMode = 0 ∨ samplePanel.options.histogramDrawMode = 1 ∨
      samplePanel.options.histogramDrawMode = 2) ∧
    (samplePanel.cycle sampleExtern
      [.modeReleased, .doubleClick 3, .modeReleased, .modeReleased]).options.histogramDrawMode
        = 1 :=
  ⟨Or.inl rfl,
    (draw_mode_cycle sampleExtern samplePanel
      [.modeReleased, .doubleClick 3, .modeReleased, .modeReleased] (Or.inl rfl)).1⟩

/-! ## C6: the sentinel sample draws no tick -/

/-- C6: on a realized, shown bar, for all flags, every draw mode and every
window size, `updateBackBuffer (-1, -1, -1)` leaves a cleared surface of the
window's size with no tick and a clean bitmap; `setHistRGBInvalid` and
`pointerMoved` with `validPos = false` (any `r, g, b`) produce that same
result. -/
theorem sentinel_draws_no_tick (E : Extern) (p : HistogramPanel)
    (hr : p.histogramRGBArea.realized = true) (hs : p.histogramRGBArea.showMode = true) :
    (p.histogramRGBArea.updateBackBuffer E p.options (-1) (-1) (-1)).surface =
      some { width := p.histogramRGBArea.winw, height := p.histogramRGBArea.winh, ticks := [] } ∧
    (p.histogramRGBArea.updateBackBuffer E p.options (-1) (-1) (-1)).dirty = false ∧
    (p.setHistRGBInvalid E).histogramRGBArea =
      p.histogramRGBArea.updateBackBuffer E p.options (-1) (-1) (-1) ∧
    ∀ r g b : Int, p.pointerMoved E false r g b = p.setHistRGBInvalid E := by
  refine ⟨?_, ?_, rfl, fun r g b => rfl⟩
  · simp [HistogramRGBArea.updateBackBuffer, HistogramRGBArea.setDrawRectangle,
      HistogramRGBArea.ticksFor, hr, hs]
  · simp [HistogramRGBArea.updateBackBuffer, hr, hs]

/-- C6 at `samplePanel`, whose bar carries an old tick: the tick is gone. -/
theorem sentinel_draws_no_tick_witness :
    samplePanel.histogramRGBArea.realized = true ∧
    samplePanel.histogramRGBArea.showMode = true ∧
    samplePanel.histogramRGBArea.surface =
      some { width := 258, height := 8, ticks := [⟨.red, 7, 0, 7, 8⟩] } ∧
    (samplePanel.setHistRGBInvalid sampleExtern).histogramRGBArea.surface =
      some { width := 258, height := 8, ticks := [] } :=
  have h := sentinel_draws_no_tick sampleExtern samplePanel rfl rfl
  ⟨rfl, rfl, rfl, h.2.2.1 ▸ h.1⟩

/-! ## C8 and C9: `HistogramRGBArea::updateOptions` -/

/-- C8: from a state where the bar is displayed, attached once to its parent
and `options.histogramBar` holds, `updateOptions` with `bar = false` detaches
the widget and clears `options.histogramBar` and `barDisplayed`; a following
`updateOptions` with `bar = true, raw = false` sets `barDisplayed`, re-attaches
the widget (every widget is attached as often as at the start, the bar once),
sets `options.histogramBar` (the options are again those of the start), and
`getShow ()` is true. -/
theorem bar_off_on_roundtrip (s : HistogramRGBArea) (parent : Container) (opts : Options)
    (r1 g1 b1 l1 raw1 c1 r2 g2 b2 l2 c2 : Bool)
    (hbar : s.barDisplayed = true)
    (hatt : parent.children.count Widget.histogramRGBArea = 1)
    (hopt : opts.histogramBar = true) :
    ((s.updateOptions parent opts r1 g1 b1 l1 raw1 false c1).2.1.children.count
        Widget.histogramRGBArea = 0 ∧
      (s.updateOptions parent opts r1 g1 b1 l1 raw1 false c1).2.2.histogramBar = false ∧
      (s.updateOptions parent opts r1 g1 b1 l1 raw1 false c1).1.barDisplayed = false) ∧
    (((s.updateOptions parent opts r1 g1 b1 l1 raw1 false c1).1.updateOptions
        (s.updateOptions parent opts r1 g1 b1 l1 raw1 false c1).2.1
        (s.updateOptions parent opts r1 g1 b1 l1 raw1 false c1).2.2
        r2 g2 b2 l2 false true c2).1.barDisplayed = true ∧
      ((s.updateOptions parent opts r1 g1 b1 l1 raw1 false c1).1.updateOptions
        (s.updateOptions parent opts r1 g1 b1 l1 raw1 false c1).2.1
        (s.updateOptions parent opts r1 g1 b1 l1 raw1 false c1).2.2
        r2 g2 b2 l2 false true c2).2.1.children.count Widget.histogramRGBArea = 1 ∧
      (∀ w : Widget,
        ((s.updateOptions parent opts r1 g1 b1 l1 raw1 false c1).1.updateOptions
          (s.updateOptions parent opts r1 g1 b1 l1 raw1 false c1).2.1
          (s.updateOptions parent opts r1 g1 b1 l1 raw1 false c1).2.2
          r2 g2 b2 l2 false true c2).2.1.children.count w = parent.children.count w) ∧
      ((s.updateOptions parent opts r1 g1 b1 l1 raw1 false c1).1.updateOptions
        (s.updateOptions parent opts r1 g1 b1 l1 raw1 false c1).2.1
        (s.updateOptions parent opts r1 g1 b1 l1 raw1 false c1).2.2
        r2 g2 b2 l2 false true c2).2.2.histogramBar = true ∧
      ((s.updateOptions parent opts r1 g1 b1 l1 raw1 false c1).1.updateOptions
        (s.updateOptions parent opts r1 g1 b1 l1 raw1 false c1).2.1
        (s.updateOptions parent opts r1 g1 b1 l1 raw1 false c1).2.2
        r2 g2 b2 l2 false true c2).2.2 = opts ∧
      ((s.updateOptions parent opts r1 g1 b1 l1 raw1 false c1).1.updateOptions
        (s.updateOptions parent opts r1 g1 b1 l1 raw1 false c1).2.1
        (s.updateOptions parent opts r1 g1 b1 l1 raw1 false c1).2.2
        r2 g2 b2 l2 false true c2).1.getShow = true) := by
  have hcount : ∀ w : Widget,
      ((parent.children.erase Widget.histogramRGBArea) ++ [Widget.histogramRGBArea]).count w =
        parent.children.count w := by
    intro w
    cases w
    · rw [List.count_append, List.count_erase_of_ne (by decide)]
      simp
    · rw [List.count_append, List.count_erase_self, hatt]
      simp
  have h1 : s.updateOptions parent opts r1 g1 b1 l1 raw1 false c1 =
      ({ s with needRed := r1, needGreen := g1, needBlue := b1, needLuma := l1, rawMode := raw1,
                showMode := false, needChroma := c1, barDisplayed := false },
        parent.removeIfThere .histogramRGBArea, { opts with histogramBar := false }) := by
    cases raw1 <;> simp [HistogramRGBArea.updateOptions, hbar]
  rw [h1]
  refine ⟨⟨?_, rfl, rfl⟩, ?_⟩
  · simp [Container.removeIfThere, List.count_erase_self, hatt]
  · simp only [HistogramRGBArea.updateOptions, Container.removeIfThere, Container.add,
      HistogramRGBArea.getShow]
    simp only [Bool.not_false, Bool.and_self, if_true, Bool.false_eq_true, if_false]
    refine ⟨trivial, by rw [hcount]; exact hatt, hcount, trivial, ?_, trivial⟩
    cases opts
    simp only [Options.mk.injEq, and_true, true_and]
    exact hopt.symm

/-- C8 at `samplePanel`: the bar is detached by the first call and is back,
attached once, after the second. -/
theorem bar_off_on_roundtrip_witness :
    sampleRGBArea.barDisplayed = true ∧
    samplePanel.gfxGrid.children.count Widget.histogramRGBArea = 1 ∧
    samplePanel.options.histogramBar = true ∧
    (sampleRGBArea.updateOptions samplePanel.gfxGrid samplePanel.options
      true true true false false false false).2.1.children.count Widget.histogramRGBArea = 0 :=
  ⟨rfl, by decide, rfl,
    (bar_off_on_roundtrip sampleRGBArea samplePanel.gfxGrid samplePanel.options
      true true true false false false true true true false false rfl (by decide) rfl).1.1⟩

/-- C9: for every prior state and every call of `updateOptions` with
`raw = true`, afterwards `getShow ()` is false and `updateBackBuffer` changes
nothing, while `barDisplayed`, the parent's children and the global options are
exactly those produced by the same call with `raw = false`. -/
theorem raw_mode_disables_bar (E : Extern) (s : HistogramRGBArea) (parent : Container)
    (opts : Options) (r g b l bar c : Bool) (r' g' b' : Int) :
    (s.updateOptions parent opts r g b l true bar c).1.getShow = false ∧
    (s.updateOptions parent opts r g b l true bar c).1.updateBackBuffer E
        (s.updateOptions parent opts r g b l true bar c).2.2 r' g' b' =
      (s.updateOptions parent opts r g b l true bar c).1 ∧
    (s.updateOptions parent opts r g b l true bar c).1.barDisplayed =
      (s.updateOptions parent opts r g b l false bar c).1.barDisplayed ∧
    (s.updateOptions parent opts r g b l true bar c).2.1 =
      (s.updateOptions parent opts r g b l false bar c).2.1 ∧
    (s.updateOptions parent opts r g b l true bar c).2.2 =
      (s.updateOptions parent opts r g b l false bar c).2.2 := by
  have hshow : (s.updateOptions parent opts r g b l true bar c).1.showMode = false := by
    cases bar <;> cases hd : s.barDisplayed <;> simp [HistogramRGBArea.updateOptions, hd]
  refine ⟨hshow, ?_, ?_, ?_, ?_⟩
  · simp [HistogramRGBArea.updateBackBuffer, hshow]
  all_goals
    cases bar <;> cases hd : s.barDisplayed <;> simp [HistogramRGBArea.updateOptions, hd]

/-! ## C7: one tick per active channel -/

theorem HistogramRGBArea.linear_tick_bounds (winw v : Int) (hw : 3 ≤ winw) (h0 : 0 ≤ v)
    (h255 : v ≤ 255) :
    2 ≤ ((v * (winw - 3) : Int) : ℚ) / 255 + 2 ∧
      ((v * (winw - 3) : Int) : ℚ) / 255 + 2 ≤ (winw : ℚ) - 1 := by
  have hq0 : (0 : ℚ) ≤ ((v * (winw - 3) : Int) : ℚ) := by
    have : (0 : Int) ≤ v * (winw - 3) := mul_nonneg h0 (by omega)
    exact_mod_cast this
  have hq1 : ((v * (winw - 3) : Int) : ℚ) ≤ 255 * ((winw : ℚ) - 3) := by
    have : v * (winw - 3) ≤ 255 * (winw - 3) := mul_le_mul_of_nonneg_right h255 (by omega)
    exact_mod_cast this
  constructor <;> linarith

theorem HistogramRGBArea.linear_tick_mono (winw v v' : Int) (hw : 3 ≤ winw) (h : v ≤ v') :
    ((v * (winw - 3) : Int) : ℚ) / 255 + 2 ≤ ((v' * (winw - 3) : Int) : ℚ) / 255 + 2 := by
  have hq : ((v * (winw - 3) : Int) : ℚ) ≤ ((v' * (winw - 3) : Int) : ℚ) := by
    have : v * (winw - 3) ≤ v' * (winw - 3) := mul_le_mul_of_nonneg_right h (by omega)
    exact_mod_cast this
  linarith

theorem HistogramRGBArea.ticksFor_setDrawRectangle (E : Extern) (opts : Options)
    (s : HistogramRGBArea) (ww wh r g b : Int) :
    HistogramRGBArea.ticksFor E opts (s.setDrawRectangle ww wh) r g b =
      HistogramRGBArea.ticksFor E opts s r g b := rfl

theorem HistogramRGBArea.ticksFor_linear (E : Extern) (opts : Options) (s : HistogramRGBArea)
    (r g b : Int) (hne : r ≠ -1 ∧ g ≠ -1 ∧ b ≠ -1) (hm : opts.histogramDrawMode < 2) :
    ∃ xl xc : ℚ, HistogramRGBArea.ticksFor E opts s r g b =
      (if s.needRed then
        [⟨.red, ((r * (s.winw - 3) : Int) : ℚ) / 255 + 2, 0,
          ((r * (s.winw - 3) : Int) : ℚ) / 255 + 2, (s.winh : ℚ)⟩] else []) ++
      (if s.needGreen then
        [⟨.green, ((g * (s.winw - 3) : Int) : ℚ) / 255 + 2, 0,
          ((g * (s.winw - 3) : Int) : ℚ) / 255 + 2, (s.winh : ℚ)⟩] else []) ++
      (if s.needBlue then
        [⟨.blue, ((b * (s.winw - 3) : Int) : ℚ) / 255 + 2, 0,
          ((b * (s.winw - 3) : Int) : ℚ) / 255 + 2, (s.winh : ℚ)⟩] else []) ++
      (if s.needLuma then [⟨.luma, xl, 0, xl, (s.winh : ℚ)⟩] else []) ++
      (if s.needChroma then [⟨.chroma, xc, 0, xc, (s.winh : ℚ)⟩] else []) := by
  refine ⟨HistogramRGBArea.tickX100 E opts s
      (E.rgb2lab01 ((r : ℚ) / 255) ((g : ℚ) / 255) ((b : ℚ) / 255)).1,
    HistogramRGBArea.tickX100 E opts s
      (E.sqrt ((E.rgb2lab01 ((r : ℚ) / 255) ((g : ℚ) / 255) ((b : ℚ) / 255)).2.1 *
          (E.rgb2lab01 ((r : ℚ) / 255) ((g : ℚ) / 255) ((b : ℚ) / 255)).2.1 +
        (E.rgb2lab01 ((r : ℚ) / 255) ((g : ℚ) / 255) ((b : ℚ) / 255)).2.2 *
          (E.rgb2lab01 ((r : ℚ) / 255) ((g : ℚ) / 255) ((b : ℚ) / 255)).2.2) / (18 / 10)), ?_⟩
  simp only [HistogramRGBArea.ticksFor, HistogramRGBArea.tickX, HistogramRGBArea.tickAt,
    hne, hm, and_self, ne_eq, not_false_eq_true, if_true, sub_zero]
  cases s.needLuma <;> cases s.needChroma <;> simp

theorem tick_list_count (nr ng nb nl nc : Bool) (h xr xg xb xl xc : ℚ) (c : Channel) :
    (((if nr then [(⟨.red, xr, 0, xr, h⟩ : Tick)] else []) ++
      (if ng then [(⟨.green, xg, 0, xg, h⟩ : Tick)] else []) ++
      (if nb then [(⟨.blue, xb, 0, xb, h⟩ : Tick)] else []) ++
      (if nl then [(⟨.luma, xl, 0, xl, h⟩ : Tick)] else []) ++
      (if nc then [(⟨.chroma, xc, 0, xc, h⟩ : Tick)] else [])).filter
        fun t => decide (t.channel = c)).length =
      if (match c with
          | .luma => nl
          | .chroma => nc
          | .red => nr
          | .green => ng
          | .blue => nb) then 1 else 0 := by
  cases nr <;> cases ng <;> cases nb <;> cases nl <;> cases nc <;> cases c <;> simp

theorem tick_list_full_height (nr ng nb nl nc : Bool) (h xr xg xb xl xc : ℚ) (t : Tick)
    (ht : t ∈ (if nr then [(⟨.red, xr, 0, xr, h⟩ : Tick)] else []) ++
      (if ng then [(⟨.green, xg, 0, xg, h⟩ : Tick)] else []) ++
      (if nb then [(⟨.blue, xb, 0, xb, h⟩ : Tick)] else []) ++
      (if nl then [(⟨.luma, xl, 0, xl, h⟩ : Tick)] else []) ++
      (if nc then [(⟨.chroma, xc, 0, xc, h⟩ : Tick)] else [])) :
    t.x0 = t.x1 ∧ t.y0 = 0 ∧ t.y1 = h := by
  simp only [List.mem_append] at ht
  rcases ht with (((ht | ht) | ht) | ht) | ht <;> split_ifs at ht <;>
    simp only [List.mem_singleton, List.not_mem_nil] at ht <;>
    (subst ht; exact ⟨rfl, rfl, rfl⟩)

/-- C7: for a sample with `r, g, b` in `0..255`, a window width `winw >= 3`
and draw mode 0 or 1, `updateBackBuffer` on a realized, shown bar strokes, on
the cleared surface, exactly one tick from `y = 0` to `y = winh` for each set
flag among red, green, blue, luma, chroma, and none for an unset flag; the red,
green and blue ticks are at `x = v * (winw - 3) / 255 + 2`, which lies in
`[2, winw - 1]` and is non-decreasing in `v`. -/
theorem ticks_per_active_channel (E : Extern) (opts : Options) (s : HistogramRGBArea)
    (r g b : Int) (hr : 0 ≤ r ∧ r ≤ 255) (hg : 0 ≤ g ∧ g ≤ 255) (hb : 0 ≤ b ∧ b ≤ 255)
    (hw : 3 ≤ s.winw)
    (hmode : opts.histogramDrawMode = 0 ∨ opts.histogramDrawMode = 1)
    (hreal : s.realized = true) (hshow : s.showMode = true) :
    (∃ xl xc : ℚ,
      (s.updateBackBuffer E opts r g b).surface =
        some { width := s.winw, height := s.winh,
               ticks :=
                (if s.needRed then
                  [⟨.red, ((r * (s.winw - 3) : Int) : ℚ) / 255 + 2, 0,
                    ((r * (s.winw - 3) : Int) : ℚ) / 255 + 2, (s.winh : ℚ)⟩] else []) ++
                (if s.needGreen then
                  [⟨.green, ((g * (s.winw - 3) : Int) : ℚ) / 255 + 2, 0,
                    ((g * (s.winw - 3) : Int) : ℚ) / 255 + 2, (s.winh : ℚ)⟩] else []) ++
                (if s.needBlue then
                  [⟨.blue, ((b * (s.winw - 3) : Int) : ℚ) / 255 + 2, 0,
                    ((b * (s.winw - 3) : Int) : ℚ) / 255 + 2, (s.winh : ℚ)⟩] else []) ++
                (if s.needLuma then [⟨.luma, xl, 0, xl, (s.winh : ℚ)⟩] else []) ++
                (if s.needChroma then [⟨.chroma, xc, 0, xc, (s.winh : ℚ)⟩] else []) }) ∧
    (∀ c : Channel,
      (((s.updateBackBuffer E opts r g b).drawnTicks.filter
        fun t => decide (t.channel = c)).length = if s.flag c then 1 else 0)) ∧
    (∀ t ∈ (s.updateBackBuffer E opts r g b).drawnTicks,
      t.x0 = t.x1 ∧ t.y0 = 0 ∧ t.y1 = (s.winh : ℚ)) ∧
    (∀ v : Int, 0 ≤ v → v ≤ 255 →
      2 ≤ ((v * (s.winw - 3) : Int) : ℚ) / 255 + 2 ∧
        ((v * (s.winw - 3) : Int) : ℚ) / 255 + 2 ≤ (s.winw : ℚ) - 1) ∧
    (∀ v v' : Int, v ≤ v' →
      ((v * (s.winw - 3) : Int) : ℚ) / 255 + 2 ≤ ((v' * (s.winw - 3) : Int) : ℚ) / 255 + 2) := by
  have hm : opts.histogramDrawMode < 2 := by omega
  have hne : r ≠ -1 ∧ g ≠ -1 ∧ b ≠ -1 := ⟨by omega, by omega, by omega⟩
  have hsurf : (s.updateBackBuffer E opts r g b).surface =
      some { width := s.winw, height := s.winh,
             ticks := HistogramRGBArea.ticksFor E opts s r g b } := by
    rw [← HistogramRGBArea.ticksFor_setDrawRectangle E opts s s.winw s.winh]
    simp [HistogramRGBArea.updateBackBuffer, HistogramRGBArea.setDrawRectangle, hreal, hshow]
  have hticks : (s.updateBackBuffer E opts r g b).drawnTicks =
      HistogramRGBArea.ticksFor E opts s r g b := by
    simp [HistogramRGBArea.drawnTicks, hsurf]
  obtain ⟨xl, xc, hlist⟩ := HistogramRGBArea.ticksFor_linear E opts s r g b hne hm
  refine ⟨⟨xl, xc, by rw [hsurf, hlist]⟩, ?_, ?_,
    fun v h0 h255 => HistogramRGBArea.linear_tick_bounds s.winw v hw h0 h255,
    fun v v' h => HistogramRGBArea.linear_tick_mono s.winw v v' hw h⟩
  · intro c
    rw [hticks, hlist, tick_list_count]
    cases c <;> rfl
  · intro t ht
    rw [hticks, hlist] at ht
    exact tick_list_full_height _ _ _ _ _ _ _ _ _ _ _ t ht

/-- C7 at `sampleRGBArea` (width 258, red, green and blue shown) with the
sample `(0, 128, 255)` in linear mode: three ticks, at `x = 2, 130, 257`. -/
theorem ticks_per_active_channel_witness :
    ((0 : Int) ≤ 0 ∧ (0 : Int) ≤ 255) ∧ ((0 : Int) ≤ 128 ∧ (128 : Int) ≤ 255) ∧
    ((0 : Int) ≤ 255 ∧ (255 : Int) ≤ 255) ∧ 3 ≤ sampleRGBArea.winw ∧
    samplePanel.options.histogramDrawMode = 0 ∧
    sampleRGBArea.realized = true ∧ sampleRGBArea.showMode = true ∧
    ∀ c : Channel,
      (((sampleRGBArea.updateBackBuffer sampleExtern samplePanel.options 0 128 255).drawnTicks.filter
        fun t => decide (t.channel = c)).length = if sampleRGBArea.flag c then 1 else 0) :=
  ⟨by decide, by decide, by decide, by decide, rfl, rfl, rfl,
    (ticks_per_active_channel sampleExtern samplePanel.options sampleRGBArea 0 128 255
      (by decide) (by decide) (by decide) (by decide) (Or.inl rfl) rfl rfl).2.1⟩

/-! ## C10: the logarithmic scaling over the reals -/

theorem HistogramScaling.log_denominator_neg (factor vsize : ℝ) (hf : 0 < factor)
    (hv : 0 < vsize) : Real.log (factor / (factor + vsize)) < 0 :=
  Real.log_neg (div_pos hf (by linarith)) ((div_lt_one (by linarith)).mpr (by linarith))

theorem HistogramScaling.log_strictMonoOn (factor vsize : ℝ) (hf : 0 < factor)
    (hv : 0 < vsize) :
    StrictMonoOn (HistogramScaling.log Real.log factor vsize) (Set.Icc 0 vsize) := by
  intro a ha b hb hab
  have hL := HistogramScaling.log_denominator_neg factor vsize hf hv
  have hfrac : factor / (factor + b) < factor / (factor + a) :=
    div_lt_div_of_pos_left hf (by linarith [ha.1]) (by linarith)
  have hlog : Real.log (factor / (factor + b)) < Real.log (factor / (factor + a)) :=
    Real.log_lt_log (div_pos hf (by linarith [hb.1])) hfrac
  have hmul := mul_lt_mul_of_pos_left hlog hv
  show vsize * Real.log (factor / (factor + a)) / Real.log (factor / (factor + vsize)) <
    vsize * Real.log (factor / (factor + b)) / Real.log (factor / (factor + vsize))
  rw [← neg_div_neg_eq (vsize * Real.log (factor / (factor + a))),
    ← neg_div_neg_eq (vsize * Real.log (factor / (factor + b)))]
  exact div_lt_div_of_pos_right (by linarith) (neg_pos.mpr hL)

/-- C10: over the reals, for `factor > 0` and `vsize > 0`,
`HistogramScaling::log (vsize, val)` maps `val = 0` to 0 and `val = vsize` to
`vsize`, is strictly increasing on `[0, vsize]`, and so maps `[0, vsize]` into
`[0, vsize]`. -/
theorem log_scaling_fixes_endpoints (factor vsize : ℝ) (hf : 0 < factor) (hv : 0 < vsize) :
    HistogramScaling.log Real.log factor vsize 0 = 0 ∧
    HistogramScaling.log Real.log factor vsize vsize = vsize ∧
    StrictMonoOn (HistogramScaling.log Real.log factor vsize) (Set.Icc 0 vsize) ∧
    Set.MapsTo (HistogramScaling.log Real.log factor vsize) (Set.Icc 0 vsize)
      (Set.Icc 0 vsize) := by
  have hL := HistogramScaling.log_denominator_neg factor vsize hf hv
  have h0 : HistogramScaling.log Real.log factor vsize 0 = 0 := by
    simp [HistogramScaling.log, div_self (ne_of_gt hf)]
  have h1 : HistogramScaling.log Real.log factor vsize vsize = vsize := by
    unfold HistogramScaling.log
    rw [mul_div_assoc, div_self (ne_of_lt hL), mul_one]
  have hmono := HistogramScaling.log_strictMonoOn factor vsize hf hv
  refine ⟨h0, h1, hmono, ?_⟩
  intro x hx
  have hlo := hmono.monotoneOn (Set.left_mem_Icc.mpr (le_of_lt hv)) hx hx.1
  have hhi := hmono.monotoneOn hx (Set.right_mem_Icc.mpr (le_of_lt hv)) hx.2
  rw [h0] at hlo
  rw [h1] at hhi
  exact ⟨hlo, hhi⟩

/-- C10 with the default `factor = 10` on the bucket axis `vsize = 255`. -/
theorem log_scaling_fixes_endpoints_witness :
    (0 : ℝ) < 10 ∧ (0 : ℝ) < 255 ∧
    HistogramScaling.log Real.log 10 255 0 = 0 ∧
    HistogramScaling.log Real.log 10 255 255 = 255 :=
  have h := log_scaling_fixes_endpoints 10 255 (by norm_num) (by norm_num)
  ⟨by norm_num, by norm_num, h.1, h.2.1⟩

/-! ## C14: the divisor of `drawCurve` -/

theorem HistogramArea.curveScale_pos (scale : ℚ) : 0 < HistogramArea.curveScale scale := by
  unfold HistogramArea.curveScale
  split_ifs with h
  · norm_num
  · exact not_le.mp h

/-- C14: for every `scale` passed to `drawCurve`, zero and negative values
included, the divisor used to normalise the counts is strictly positive; it is
`scale` when `scale > 0` and `0.001` otherwise; and the value computed for
bucket `i` is `data[i] * vsize / divisor`, a division by a non-zero number (shown
on the vertex height of the linear mode). -/
theorem curve_divisor_positive (scale : ℚ) :
    0 < HistogramArea.curveScale scale ∧
    HistogramArea.curveScale scale ≠ 0 ∧
    (0 < scale → HistogramArea.curveScale scale = scale) ∧
    (scale ≤ 0 → HistogramArea.curveScale scale = 1 / 1000) ∧
    ∀ (E : Extern) (s : HistogramArea) (data : LUTu) (hsize vsize : Int) (i : Nat),
      s.drawMode = 0 →
      (HistogramArea.curveVertex E s data scale hsize vsize i).2 =
        ((vsize - 2 : Int) : ℚ) +
          ((data i : ℚ) * (vsize : ℚ) / HistogramArea.curveScale scale) *
            ((4 - vsize : Int) : ℚ) / (vsize : ℚ) := by
  refine ⟨HistogramArea.curveScale_pos scale, ne_of_gt (HistogramArea.curveScale_pos scale),
    ?_, ?_, ?_⟩
  · intro h
    simp [HistogramArea.curveScale, not_le.mpr h]
  · intro h
    simp [HistogramArea.curveScale, h]
  · intro E s data hsize vsize i hm
    simp [HistogramArea.curveVertex, hm]

/-- C14 at the scales `0`, `-5` and `500`: the divisors are `1/1000`, `1/1000`
and `500`. -/
theorem curve_divisor_positive_witness :
    HistogramArea.curveScale 0 = 1 / 1000 ∧ HistogramArea.curveScale (-5) = 1 / 1000 ∧
      HistogramArea.curveScale 500 = 500 :=
  ⟨(curve_divisor_positive 0).2.2.2.1 (le_refl 0),
    (curve_divisor_positive (-5)).2.2.2.1 (by norm_num),
    (curve_divisor_positive 500).2.2.1 (by norm_num)⟩

/-! ## C16: the polyline of the linear mode -/

namespace HistogramArea

theorem curveVertex_linear (E : Extern) (s : HistogramArea) (data : LUTu) (scale : ℚ)
    (hsize vsize : Int) (i : Nat) (hm : s.drawMode = 0) (hs : 0 < scale) :
    curveVertex E s data scale hsize vsize i =
      ((i : ℚ) / 255 * ((hsize : ℚ) - 1),
        ((vsize : ℚ) - 2) + ((data i : ℚ) * (vsize : ℚ) / scale) * (4 - (vsize : ℚ)) /
          (vsize : ℚ)) := by
  simp [curveVertex, curveScale, hm, not_le.mpr hs]

theorem linear_height_eq (c scale v : ℚ) (hv : v ≠ 0) :
    (v - 2) + (c * v / scale) * (4 - v) / v = (v - 2) + c / scale * (4 - v) := by
  rw [show c * v / scale * (4 - v) / v = (c / scale * (4 - v)) * (v / v) by ring,
    div_self hv, mul_one]

theorem linear_height_bounds (c scale v : ℚ) (hv : 4 ≤ v) (hs : 0 < scale) (h0 : 0 ≤ c)
    (h1 : c ≤ scale) :
    2 ≤ (v - 2) + (c * v / scale) * (4 - v) / v ∧
      (v - 2) + (c * v / scale) * (4 - v) / v ≤ v - 2 := by
  rw [linear_height_eq c scale v (by linarith)]
  have ht0 : 0 ≤ c / scale := div_nonneg h0 (le_of_lt hs)
  have ht1 : c / scale ≤ 1 := (div_le_one hs).mpr h1
  constructor <;> nlinarith

theorem linear_height_antitone (c c' scale v : ℚ) (hv : 4 ≤ v) (hs : 0 < scale)
    (h : c ≤ c') :
    (v - 2) + (c' * v / scale) * (4 - v) / v ≤ (v - 2) + (c * v / scale) * (4 - v) / v := by
  rw [linear_height_eq c scale v (by linarith), linear_height_eq c' scale v (by linarith)]
  have ht : c / scale ≤ c' / scale := div_le_div_of_nonneg_right h (le_of_lt hs)
  nlinarith

end HistogramArea

/-- C16: in linear mode, for `vsize >= 4`, `hsize >= 1`, `scale > 0` and
counts with `0 <= data[i] <= scale`, the path of `drawCurve` is the start point
`(0, vsize - 1)`, one vertex per bucket `0..255` and the end point
`(hsize - 1, vsize - 1)`; the vertex of bucket `i` has
`posX = i/255 * (hsize - 1)` in `[0, hsize - 1]`, non-decreasing in `i`, and
`posY = vsize - 2 + val * (4 - vsize) / vsize` with `val = data[i] * vsize / scale`,
which lies in `[2, vsize - 2]`, is `vsize - 2` for the count 0 and 2 for the
count `scale`, and is non-increasing in the count. -/
theorem linear_polyline (E : Extern) (s : HistogramArea) (data : LUTu) (scale : ℚ)
    (hsize vsize : Int) (hm : s.drawMode = 0) (hv : 4 ≤ vsize) (hh : 1 ≤ hsize)
    (hs : 0 < scale) (hd : ∀ i, i < 256 → (data i : ℚ) ≤ scale) :
    HistogramArea.drawCurve E s data scale hsize vsize =
      [((0 : ℚ), (vsize : ℚ) - 1)] ++
        (List.range 256).map (fun (i : Nat) =>
          ((i : ℚ) / 255 * ((hsize : ℚ) - 1),
            ((vsize : ℚ) - 2) + ((data i : ℚ) * (vsize : ℚ) / scale) * (4 - (vsize : ℚ)) /
              (vsize : ℚ))) ++
        [((hsize : ℚ) - 1, (vsize : ℚ) - 1)] ∧
    (HistogramArea.drawCurve E s data scale hsize vsize).length = 258 ∧
    (∀ i, i < 256 →
      0 ≤ (HistogramArea.curveVertex E s data scale hsize vsize i).1 ∧
      (HistogramArea.curveVertex E s data scale hsize vsize i).1 ≤ (hsize : ℚ) - 1 ∧
      2 ≤ (HistogramArea.curveVertex E s data scale hsize vsize i).2 ∧
      (HistogramArea.curveVertex E s data scale hsize vsize i).2 ≤ (vsize : ℚ) - 2 ∧
      (data i = 0 →
        (HistogramArea.curveVertex E s data scale hsize vsize i).2 = (vsize : ℚ) - 2) ∧
      ((data i : ℚ) = scale →
        (HistogramArea.curveVertex E s data scale hsize vsize i).2 = 2)) ∧
    (∀ i j : Nat, i ≤ j →
      (HistogramArea.curveVertex E s data scale hsize vsize i).1 ≤
        (HistogramArea.curveVertex E s data scale hsize vsize j).1) ∧
    (∀ (data' : LUTu) (i : Nat), data i ≤ data' i →
      (HistogramArea.curveVertex E s data' scale hsize vsize i).2 ≤
        (HistogramArea.curveVertex E s data scale hsize vsize i).2) := by
  have hvq : (4 : ℚ) ≤ (vsize : ℚ) := by exact_mod_cast hv
  have hhq : (0 : ℚ) ≤ (hsize : ℚ) - 1 := by
    have : (1 : ℚ) ≤ (hsize : ℚ) := by exact_mod_cast hh
    linarith
  have hvne : (vsize : ℚ) ≠ 0 := by linarith
  refine ⟨?_, ?_, ?_, ?_, ?_⟩
  · unfold HistogramArea.drawCurve
    have hmap : (List.range 256).map (HistogramArea.curveVertex E s data scale hsize vsize) =
        (List.range 256).map (fun (i : Nat) =>
          ((i : ℚ) / 255 * ((hsize : ℚ) - 1),
            ((vsize : ℚ) - 2) + ((data i : ℚ) * (vsize : ℚ) / scale) * (4 - (vsize : ℚ)) /
              (vsize : ℚ))) :=
      List.map_congr_left fun i _ =>
        HistogramArea.curveVertex_linear E s data scale hsize vsize i hm hs
    rw [hmap]
    push_cast
    rfl
  · simp [HistogramArea.drawCurve]
  · intro i hi
    rw [HistogramArea.curveVertex_linear E s data scale hsize vsize i hm hs]
    have hi0 : (0 : ℚ) ≤ (i : ℚ) / 255 := by positivity
    have hi1 : (i : ℚ) / 255 ≤ 1 := by
      have : (i : ℚ) ≤ 255 := by exact_mod_cast Nat.lt_succ_iff.mp hi
      linarith
    have hb := HistogramArea.linear_height_bounds (data i : ℚ) scale (vsize : ℚ) hvq hs
      (by positivity) (hd i hi)
    refine ⟨mul_nonneg hi0 hhq, by nlinarith, hb.1, hb.2, ?_, ?_⟩
    · intro h0
      simp [h0]
    · intro h1
      show ((vsize : ℚ) - 2) + ((data i : ℚ) * (vsize : ℚ) / scale) * (4 - (vsize : ℚ)) /
        (vsize : ℚ) = 2
      rw [HistogramArea.linear_height_eq _ _ _ hvne, h1, div_self (ne_of_gt hs)]
      ring
  · intro i j hij
    rw [HistogramArea.curveVertex_linear E s data scale hsize vsize i hm hs,
      HistogramArea.curveVertex_linear E s data scale hsize vsize j hm hs]
    have : (i : ℚ) / 255 ≤ (j : ℚ) / 255 := by
      have : (i : ℚ) ≤ (j : ℚ) := by exact_mod_cast hij
      linarith
    exact mul_le_mul_of_nonneg_right this hhq
  · intro data' i hle
    rw [HistogramArea.curveVertex_linear E s data scale hsize vsize i hm hs,
      HistogramArea.curveVertex_linear E s data' scale hsize vsize i hm hs]
    exact HistogramArea.linear_height_antitone (data i : ℚ) (data' i : ℚ) scale (vsize : ℚ) hvq hs
      (by exact_mod_cast hle)

theorem sampleArea_inner_le (i : Nat) (_ : i < 256) :
    ((sampleAreaUnclipped.rhchanged i : Nat) : ℚ) ≤ 500 := by
  have h : sampleAreaUnclipped.rhchanged i ≤ 500 := by
    simp only [HistogramArea.rhchanged, HistogramArea.rh, HistogramArea.scale,
      sampleAreaUnclipped, sampleArea, emptyArea]
    simp only [Bool.false_eq_true, if_false, if_true, Nat.div_one]
    split_ifs <;> omega
  exact_mod_cast h

/-- C16 at the red table of `sampleAreaUnclipped` (linear mode, scale 500) on a
surface of 400 by 200: 258 points, and the vertex of bucket 10, whose count is
the scale, is at height 2. -/
theorem linear_polyline_witness :
    sampleAreaUnclipped.drawMode = 0 ∧ (4 : Int) ≤ 200 ∧ (1 : Int) ≤ 400 ∧ (0 : ℚ) < 500 ∧
    (∀ i, i < 256 → ((sampleAreaUnclipped.rhchanged i : Nat) : ℚ) ≤ 500) ∧
    (HistogramArea.drawCurve sampleExtern sampleAreaUnclipped sampleAreaUnclipped.rhchanged
      500 400 200).length = 258 ∧
    (HistogramArea.curveVertex sampleExtern sampleAreaUnclipped sampleAreaUnclipped.rhchanged
      500 400 200 10).2 = 2 :=
  have h := linear_polyline sampleExtern sampleAreaUnclipped sampleAreaUnclipped.rhchanged
    500 400 200 rfl (by decide) (by decide) (by norm_num) sampleArea_inner_le
  ⟨rfl, by decide, by decide, by norm_num, sampleArea_inner_le, h.2.1,
    (h.2.2.1 10 (by decide)).2.2.2.2.2 (by
      simp [HistogramArea.rhchanged, HistogramArea.rh, HistogramArea.scale,
        sampleAreaUnclipped, sampleArea, emptyArea])⟩

/-! ## C15: the grid -/

namespace HistogramArea

theorem tdiv_below_350 (h : Int) (h0 : 0 ≤ h) (h1 : h < 350) : (h - 100).tdiv 250 = 0 := by
  rcases le_or_lt 100 h with h2 | h2
  · exact Int.tdiv_eq_zero_of_lt (by omega) (by omega)
  · have hneg : h - 100 = -(100 - h) := by ring
    rw [hneg, Int.neg_tdiv, Int.tdiv_eq_zero_of_lt (by omega) (by omega)]
    rfl

theorem nrOfHGridPartitions_eq (h : Int) (h0 : 0 ≤ h) :
    nrOfHGridPartitions h = if h < 350 then 4 else if h < 600 then 8 else 16 := by
  unfold nrOfHGridPartitions
  split_ifs with h1 h2
  · rw [tdiv_below_350 h h0 h1]
    norm_num [truncToInt]
  · have hq : (h - 100).tdiv 250 = 1 := by
      rw [Int.tdiv_eq_ediv (by omega) (by omega)]
      omega
    rw [hq]
    norm_num [truncToInt]
  · have hq : 2 ≤ (h - 100).tdiv 250 := by
      rw [Int.tdiv_eq_ediv (by omega) (by omega)]
      omega
    have hpow : (16 : ℚ) ≤ (2 : ℚ) ^ ((h - 100).tdiv 250 + 2) := by
      have hle := zpow_le_zpow_right₀ (show (1 : ℚ) ≤ 2 by norm_num)
        (show (4 : Int) ≤ (h - 100).tdiv 250 + 2 by omega)
      norm_num at hle
      exact hle
    rw [min_eq_left hpow]
    norm_num [truncToInt]

theorem verticalGridLines_linear (E : Extern) (opts : Options) (s : HistogramArea)
    (hm : opts.histogramDrawMode < 2) :
    verticalGridLines E opts s =
      [1, 3, 7, 15, 31, 63, 127].map (fun (v : ℚ) =>
        DrawCmd.line (v / 255 * (s.w : ℚ) + 1 / 2) (3 / 2) (v / 255 * (s.w : ℚ) + 1 / 2)
          ((s.h : ℚ) - 2)) := by
  simp only [verticalGridLines, verticalGridLine, hm, if_true, List.range', List.map_cons,
    List.map_nil]
  push_cast
  norm_num

theorem gridLines_congr (E : Extern) (opts : Options) (s t : HistogramArea) (hw : t.w = s.w)
    (hh : t.h = s.h) (hf : t.factor = s.factor) : gridLines E opts t = gridLines E opts s := by
  have hv : verticalGridLine E opts t = verticalGridLine E opts s := by
    funext i
    simp only [verticalGridLine, hw, hh, hf]
  have hl : horizontalGridLine E opts t = horizontalGridLine E opts s := by
    funext n i
    simp only [horizontalGridLine, hw, hh, hf]
  simp only [gridLines, verticalGridLines, horizontalGridLines, hv, hl, hh]

end HistogramArea

namespace HistogramArea

theorem drawChannel_lines (E : Extern) (s : HistogramArea) (c : Channel) (filled : Bool)
    (data : LUTu) (R : Int) (st : List DrawCmd × MarkState) :
    (drawChannel E s c filled data R st).1.filter DrawCmd.isLine =
      st.1.filter DrawCmd.isLine := by
  have hrect : ∀ l : List Rect, (l.map DrawCmd.rectangle).filter DrawCmd.isLine = [] := by
    intro l
    induction l with
    | nil => rfl
    | cons r rest ih => simp [List.filter_cons, DrawCmd.isLine]
  simp only [drawChannel, List.filter_append, hrect, List.append_nil]
  simp [List.filter_cons, DrawCmd.isLine]

theorem histogramCmds_lines (E : Extern) (s : HistogramArea) (winh : Int) :
    (histogramCmds E s winh).1.filter DrawCmd.isLine = [] := by
  simp only [histogramCmds]
  split_ifs <;> simp only [drawChannel_lines] <;> rfl

theorem verticalGridLines_lines (E : Extern) (opts : Options) (s : HistogramArea) :
    (verticalGridLines E opts s).filter DrawCmd.isLine = verticalGridLines E opts s := by
  rw [List.filter_eq_self]
  intro a ha
  obtain ⟨i, _, rfl⟩ := List.mem_map.mp ha
  rfl

theorem horizontalGridLines_lines (E : Extern) (opts : Options) (s : HistogramArea) :
    (horizontalGridLines E opts s).filter DrawCmd.isLine = horizontalGridLines E opts s := by
  rw [List.filter_eq_self]
  intro a ha
  obtain ⟨i, _, rfl⟩ := List.mem_map.mp ha
  rfl

theorem updateBackBufferDraw_lines (E : Extern) (opts : Options) (s : HistogramArea)
    (hr : s.realized = true) :
    (updateBackBufferDraw E opts s).filter DrawCmd.isLine =
      verticalGridLines E opts (s.setDrawRectangle s.winw s.winh) ++
        horizontalGridLines E opts (s.setDrawRectangle s.winw s.winh) := by
  simp only [updateBackBufferDraw, hr, Bool.not_true, Bool.false_eq_true, if_false, gridLines,
    List.filter_append, verticalGridLines_lines, horizontalGridLines_lines]
  split_ifs
  · rw [histogramCmds_lines]
    rfl
  · rfl

end HistogramArea

/-- C15 as stated fails on a surface of width 0: on the panel constructed and
realized with a window of 0 by 100, in linear mode, the seven vertical lines
that `updateBackBuffer` draws are all at `x = 1/2`, which is not strictly
increasing. -/
theorem vertical_grid_lines_coincide_at_zero_width :
    (HistogramPanel.run sampleExtern samplePanel.options
      [.realizeArea 0 100]).histogramArea.realized = true ∧
    (HistogramPanel.run sampleExtern samplePanel.options
      [.realizeArea 0 100]).options.histogramDrawMode = 0 ∧
    (HistogramArea.updateBackBufferDraw sampleExtern samplePanel.options
      (HistogramPanel.run sampleExtern samplePanel.options
        [.realizeArea 0 100]).histogramArea).filter DrawCmd.isLine =
      List.replicate 7 (DrawCmd.line (1 / 2) (3 / 2) (1 / 2) 98) ++
        HistogramArea.horizontalGridLines sampleExtern samplePanel.options
          ((HistogramPanel.run sampleExtern samplePanel.options
            [.realizeArea 0 100]).histogramArea.setDrawRectangle 0 100) ∧
    ¬ List.Pairwise (fun a b : ℚ => a < b)
      ([1, 3, 7, 15, 31, 63, 127].map (fun (v : ℚ) => v / 255 * ((0 : Int) : ℚ) + 1 / 2)) := by
  refine ⟨rfl, rfl, ?_, ?_⟩
  · rw [HistogramArea.updateBackBufferDraw_lines _ _ _ rfl]
    congr 1
    have hv := HistogramArea.verticalGridLines_linear sampleExtern samplePanel.options
      ((HistogramPanel.run sampleExtern samplePanel.options
        [.realizeArea 0 100]).histogramArea.setDrawRectangle 0 100) (by decide)
    have hw : ((HistogramPanel.run sampleExtern samplePanel.options
        [.realizeArea 0 100]).histogramArea.setDrawRectangle 0 100).w = 0 := rfl
    have hh : ((HistogramPanel.run sampleExtern samplePanel.options
        [.realizeArea 0 100]).histogramArea.setDrawRectangle 0 100).h = 100 := rfl
    rw [hw, hh] at hv
    have hwin : (HistogramPanel.run sampleExtern samplePanel.options
        [.realizeArea 0 100]).histogramArea.winw = 0 := rfl
    have hwinh : (HistogramPanel.run sampleExtern samplePanel.options
        [.realizeArea 0 100]).histogramArea.winh = 100 := rfl
    rw [hwin, hwinh, hv]
    norm_num [List.replicate]
  · norm_num [List.pairwise_cons]

/-- C15 (amended): for every height `h >= 0` the number of horizontal
partitions `min (16, 2^((h - 100)/250 + 2))`, with truncating division, is 4
for `h < 350`, 8 for `350 <= h < 600` and 16 for `h >= 600`, so never above 16.
On a realized widget with a window of height `winh >= 0`, whatever the channel
flags and the validity of the data, the lines that `updateBackBuffer` draws
are exactly 7 vertical lines followed by that number minus one horizontal
lines; in draw modes 0 and 1 the vertical lines are those of the stops 1, 3, 7,
15, 31, 63, 127 at `x = v/255 * w + 0.5`, and these `x` are strictly increasing
when the surface width `w` is positive. -/
theorem grid_partitions (E : Extern) (opts : Options) (s : HistogramArea)
    (hr : s.realized = true) (hh : 0 ≤ s.winh) :
    (∀ h : Int, 0 ≤ h →
      HistogramArea.nrOfHGridPartitions h = (if h < 350 then 4 else if h < 600 then 8 else 16) ∧
      HistogramArea.nrOfHGridPartitions h ≤ 16) ∧
    HistogramArea.updateBackBufferDraw E opts s =
      (if s.valid then
        (HistogramArea.histogramCmds E (s.setDrawRectangle s.winw s.winh) s.winh).1 else []) ++
        (HistogramArea.verticalGridLines E opts (s.setDrawRectangle s.winw s.winh) ++
          HistogramArea.horizontalGridLines E opts (s.setDrawRectangle s.winw s.winh)) ∧
    (HistogramArea.updateBackBufferDraw E opts s).filter DrawCmd.isLine =
      HistogramArea.verticalGridLines E opts (s.setDrawRectangle s.winw s.winh) ++
        HistogramArea.horizontalGridLines E opts (s.setDrawRectangle s.winw s.winh) ∧
    (HistogramArea.verticalGridLines E opts (s.setDrawRectangle s.winw s.winh)).length = 7 ∧
    ((HistogramArea.horizontalGridLines E opts (s.setDrawRectangle s.winw s.winh)).length : Int)
      = HistogramArea.nrOfHGridPartitions s.winh - 1 ∧
    ((((HistogramArea.updateBackBufferDraw E opts s).filter DrawCmd.isLine).length : Nat) : Int)
      = 7 + (HistogramArea.nrOfHGridPartitions s.winh - 1) ∧
    (opts.histogramDrawMode = 0 ∨ opts.histogramDrawMode = 1 →
      HistogramArea.verticalGridLines E opts (s.setDrawRectangle s.winw s.winh) =
        [1, 3, 7, 15, 31, 63, 127].map (fun (v : ℚ) =>
          DrawCmd.line (v / 255 * (s.winw : ℚ) + 1 / 2) (3 / 2) (v / 255 * (s.winw : ℚ) + 1 / 2)
            ((s.winh : ℚ) - 2))) ∧
    (0 < s.winw →
      List.Pairwise (fun a b : ℚ => a < b)
        ([1, 3, 7, 15, 31, 63, 127].map (fun (v : ℚ) => v / 255 * (s.winw : ℚ) + 1 / 2))) ∧
    (∀ t : HistogramArea, t.realized = true → t.winw = s.winw → t.winh = s.winh →
      t.factor = s.factor →
      (HistogramArea.updateBackBufferDraw E opts t).filter DrawCmd.isLine =
        (HistogramArea.updateBackBufferDraw E opts s).filter DrawCmd.isLine) := by
  have hn := HistogramArea.nrOfHGridPartitions_eq s.winh hh
  have hlines := HistogramArea.updateBackBufferDraw_lines E opts s hr
  have hvlen : (HistogramArea.verticalGridLines E opts
      (s.setDrawRectangle s.winw s.winh)).length = 7 := by
    simp [HistogramArea.verticalGridLines]
  have hhlen : ((HistogramArea.horizontalGridLines E opts
      (s.setDrawRectangle s.winw s.winh)).length : Int) =
        HistogramArea.nrOfHGridPartitions s.winh - 1 := by
    have hsh : (s.setDrawRectangle s.winw s.winh).h = s.winh := rfl
    simp only [HistogramArea.horizontalGridLines, List.length_map, List.length_range', hsh]
    rw [hn]
    split_ifs <;> rfl
  refine ⟨?_, ?_, hlines, hvlen, hhlen, ?_, ?_, ?_, ?_⟩
  · intro h h0
    have hnh := HistogramArea.nrOfHGridPartitions_eq h h0
    refine ⟨hnh, ?_⟩
    rw [hnh]
    split_ifs <;> decide
  · simp only [HistogramArea.updateBackBufferDraw, hr, Bool.not_true, Bool.false_eq_true,
      if_false, HistogramArea.gridLines]
    rfl
  · rw [hlines, List.length_append, hvlen]
    push_cast
    rw [hhlen]
  · intro hm
    exact HistogramArea.verticalGridLines_linear E opts _ (by omega)
  · intro hw
    have hwq : (0 : ℚ) < (s.winw : ℚ) := by exact_mod_cast hw
    simp only [List.map_cons, List.map_nil, List.pairwise_cons, List.mem_cons,
      List.mem_singleton, List.not_mem_nil, forall_eq_or_imp, forall_eq, List.Pairwise.nil,
      and_true, false_imp_iff, implies_true]
    refine ⟨⟨?_, ?_, ?_, ?_, ?_, ?_⟩, ⟨?_, ?_, ?_, ?_, ?_⟩, ⟨?_, ?_, ?_, ?_⟩, ⟨?_, ?_, ?_⟩,
      ⟨?_, ?_⟩, ?_⟩ <;> linarith
  · intro t htr hw hh' hf
    rw [hlines, HistogramArea.updateBackBufferDraw_lines E opts t htr]
    have hg := HistogramArea.gridLines_congr E opts (s.setDrawRectangle s.winw s.winh)
      (t.setDrawRectangle t.winw t.winh) hw hh' hf
    exact hg

/-- C15 at `sampleArea` (realized, window of 400 by 100, linear mode): 4
partitions, 7 vertical and 3 horizontal lines drawn, the vertical ones at
strictly increasing `x`. -/
theorem grid_partitions_witness :
    sampleArea.realized = true ∧ (0 : Int) ≤ sampleArea.winh ∧ (0 : Int) < sampleArea.winw ∧
    samplePanel.options.histogramDrawMode = 0 ∧
    HistogramArea.nrOfHGridPartitions sampleArea.winh = 4 ∧
    ((((HistogramArea.updateBackBufferDraw sampleExtern samplePanel.options sampleArea).filter
      DrawCmd.isLine).length : Nat) : Int) = 7 + (HistogramArea.nrOfHGridPartitions sampleArea.winh - 1) ∧
    List.Pairwise (fun a b : ℚ => a < b)
      ([1, 3, 7, 15, 31, 63, 127].map
        (fun (v : ℚ) => v / 255 * (sampleArea.winw : ℚ) + 1 / 2)) :=
  have h := grid_partitions sampleExtern samplePanel.options sampleArea rfl (by decide)
  ⟨rfl, by decide, by decide, rfl, ((h.1 sampleArea.winh (by decide)).1).trans (by decide),
    h.2.2.2.2.2.1, h.2.2.2.2.2.2.2.1 (by decide)⟩

/-! ## C13: `updateBackBuffer` is idempotent -/

/-- C13: for every state of the histogram area (realized or not, any tables,
flags, draw mode, factor and size), a second `updateBackBuffer` issues the same
drawing commands as the first and leaves the state of the first unchanged; the
first call itself modifies neither the tables, nor the flags, nor the draw
mode, nor the factor. -/
theorem updateBackBuffer_idempotent (E : Extern) (opts : Options) (s : HistogramArea) :
    HistogramArea.updateBackBufferDraw E opts s.updateBackBuffer =
      HistogramArea.updateBackBufferDraw E opts s ∧
    s.updateBackBuffer.updateBackBuffer = s.updateBackBuffer ∧
    (s.updateBackBuffer.lhist = s.lhist ∧ s.updateBackBuffer.chist = s.chist ∧
      s.updateBackBuffer.rhist = s.rhist ∧ s.updateBackBuffer.ghist = s.ghist ∧
      s.updateBackBuffer.bhist = s.bhist ∧ s.updateBackBuffer.rhistRaw = s.rhistRaw ∧
      s.updateBackBuffer.ghistRaw = s.ghistRaw ∧ s.updateBackBuffer.bhistRaw = s.bhistRaw) ∧
    (s.updateBackBuffer.needLuma = s.needLuma ∧ s.updateBackBuffer.needChroma = s.needChroma ∧
      s.updateBackBuffer.needRed = s.needRed ∧ s.updateBackBuffer.needGreen = s.needGreen ∧
      s.updateBackBuffer.needBlue = s.needBlue ∧ s.updateBackBuffer.rawMode = s.rawMode ∧
      s.updateBackBuffer.valid = s.valid) ∧
    s.updateBackBuffer.drawMode = s.drawMode ∧ s.updateBackBuffer.factor = s.factor ∧
    (s.realized = true →
      s.updateBackBuffer.oldwidth = s.winw ∧ s.updateBackBuffer.oldheight = s.winh ∧
      s.updateBackBuffer.dirty = false) := by
  cases hr : s.realized
  · have h1 : s.updateBackBuffer = s := by simp [HistogramArea.updateBackBuffer, hr]
    simp [h1, hr]
  · have h1 : s.updateBackBuffer =
        { s with w := s.winw, h := s.winh, oldwidth := s.winw, oldheight := s.winh,
                 dirty := false } := by
      simp [HistogramArea.updateBackBuffer, HistogramArea.setDrawRectangle, hr]
    rw [h1]
    refine ⟨?_, ?_, ?_, ?_, rfl, rfl, ?_⟩
    · simp only [HistogramArea.updateBackBufferDraw, hr]
      rfl
    · simp [HistogramArea.updateBackBuffer, HistogramArea.setDrawRectangle, hr]
    · exact ⟨rfl, rfl, rfl, rfl, rfl, rfl, rfl, rfl⟩
    · exact ⟨rfl, rfl, rfl, rfl, rfl, rfl, rfl⟩
    · exact fun _ => ⟨rfl, rfl, rfl⟩

/-- C13 at the realized `sampleArea` (window of 400 by 100): the second call
draws what the first drew and the size record and the clean flag of the first
call stay. -/
theorem updateBackBuffer_idempotent_witness :
    sampleArea.realized = true ∧
    HistogramArea.updateBackBufferDraw sampleExtern samplePanel.options
        sampleArea.updateBackBuffer =
      HistogramArea.updateBackBufferDraw sampleExtern samplePanel.options sampleArea ∧
    sampleArea.updateBackBuffer.updateBackBuffer = sampleArea.updateBackBuffer ∧
    sampleArea.updateBackBuffer.oldwidth = 400 ∧ sampleArea.updateBackBuffer.oldheight = 100 ∧
    sampleArea.updateBackBuffer.dirty = false :=
  have h := updateBackBuffer_idempotent sampleExtern samplePanel.options sampleArea
  ⟨rfl, h.1, h.2.1, (h.2.2.2.2.2.2 rfl).1, (h.2.2.2.2.2.2 rfl).2.1, (h.2.2.2.2.2.2 rfl).2.2⟩

/-! ## C18: in raw mode the hidden luma table still sets the scale -/

namespace HistogramArea

end HistogramArea

theorem HistogramArea.updateBackBuffer_clean (s : HistogramArea) (hr : s.realized = true) :
    s.updateBackBuffer.dirty = false := by
  simp [HistogramArea.updateBackBuffer, hr]

theorem HistogramRGBArea.updateBackBuffer_shown_clean (E : Extern) (opts : Options)
    (s : HistogramRGBArea) (r g b : Int) (hr : s.realized = true) (hs : s.showMode = true) :
    (s.updateBackBuffer E opts r g b).dirty = false := by
  simp [HistogramRGBArea.updateBackBuffer, hr, hs]

theorem HistogramRGBArea.updateBackBuffer_hidden (E : Extern) (opts : Options)
    (s : HistogramRGBArea) (r g b : Int) (hs : s.showMode = false) :
    s.updateBackBuffer E opts r g b = s := by
  simp [HistogramRGBArea.updateBackBuffer, hs]

theorem HistogramArea.on_draw_redraw (s : HistogramArea) (width height : Int)
    (h : width ≠ s.oldwidth ∨ height ≠ s.oldheight ∨ s.dirty = true) :
    s.on_draw width height =
      (s.updateBackBuffer,
        [DrawStep.updateBackBuffer, DrawStep.renderBackground,
          DrawStep.copySurface s.updateBackBuffer.dirty, DrawStep.renderFrame]) := by
  have hred : (decide (width ≠ s.oldwidth) || decide (height ≠ s.oldheight) || s.dirty)
      = true := by
    rcases h with h | h | h <;> simp [h]
  unfold HistogramArea.on_draw
  simp only [hred, if_true]
  rfl

theorem HistogramArea.on_draw_keep (s : HistogramArea) (width height : Int)
    (h : ¬ (width ≠ s.oldwidth ∨ height ≠ s.oldheight ∨ s.dirty = true)) :
    s.on_draw width height =
      (s, [DrawStep.renderBackground, DrawStep.copySurface false, DrawStep.renderFrame]) := by
  push_neg at h
  obtain ⟨h1, h2, h3⟩ := h
  have h3' : s.dirty = false := by simpa using h3
  have hd : (decide (width ≠ s.oldwidth) || decide (height ≠ s.oldheight)) = false := by
    simp [h1, h2]
  unfold HistogramArea.on_draw
  simp only [h3', hd, Bool.or_false, Bool.false_eq_true, if_false]
  rfl

theorem HistogramRGBArea.updateBackBuffer_keeps_clean (E : Extern) (opts : Options)
    (s : HistogramRGBArea) (r g b : Int) (h : s.surface = none ∨ s.dirty = false) :
    (s.updateBackBuffer E opts r g b).surface = none ∨
      (s.updateBackBuffer E opts r g b).dirty = false := by
  cases hr : s.realized
  · have hu : s.updateBackBuffer E opts r g b = s := by
      simp [HistogramRGBArea.updateBackBuffer, hr]
    rw [hu]
    exact h
  · cases hs : s.showMode
    · rw [HistogramRGBArea.updateBackBuffer_hidden E opts s r g b hs]
      exact h
    · exact Or.inr (HistogramRGBArea.updateBackBuffer_shown_clean E opts s r g b hr hs)

theorem HistogramRGBArea.updateOptions_keeps_surface (s : HistogramRGBArea)
    (parent : Container) (opts : Options) (r g b l raw bar c : Bool) :
    (s.updateOptions parent opts r g b l raw bar c).1.surface = s.surface ∧
      (s.updateOptions parent opts r g b l raw bar c).1.dirty = s.dirty := by
  unfold HistogramRGBArea.updateOptions
  simp only
  split_ifs <;> exact ⟨rfl, rfl⟩

theorem HistogramRGBArea.on_draw_keeps_clean (E : Extern) (opts : Options)
    (s : HistogramRGBArea) (h : s.surface = none ∨ s.dirty = false) :
    (s.on_draw E opts).1.surface = none ∨ (s.on_draw E opts).1.dirty = false := by
  cases hsf : s.surface with
  | none =>
    have hu : (s.on_draw E opts).1 = s := by simp [HistogramRGBArea.on_draw, hsf]
    rw [hu]
    exact Or.inl hsf
  | some sf =>
    have hd : s.dirty = false := by
      rcases h with h | h
      · rw [hsf] at h
        cases h
      · exact h
    have hu : (s.on_draw E opts).1 = s := by simp [HistogramRGBArea.on_draw, hsf, hd]
    rw [hu]
    exact Or.inr hd

theorem HistogramRGBArea.on_draw_bar_clean_copy (E : Extern) (opts : Options)
    (s : HistogramRGBArea) (h : s.surface = none ∨ s.dirty = false) (d : Bool)
    (hd : DrawStep.copySurface d ∈ (s.on_draw E opts).2) : d = false := by
  cases hsf : s.surface with
  | none => simp [HistogramRGBArea.on_draw, hsf] at hd
  | some sf =>
    have hdirty : s.dirty = false := by
      rcases h with h | h
      · rw [hsf] at h
        cases h
      · exact h
    simp [HistogramRGBArea.on_draw, hsf, hdirty] at hd
    exact hd

namespace HistogramPanel

theorem rgbv_toggled_bar_clean (E : Extern) (p : HistogramPanel)
    (h : p.histogramRGBArea.surface = none ∨ p.histogramRGBArea.dirty = false) :
    (p.rgbv_toggled E).histogramRGBArea.surface = none ∨
      (p.rgbv_toggled E).histogramRGBArea.dirty = false := by
  have hk := HistogramRGBArea.updateOptions_keeps_surface p.histogramRGBArea p.gfxGrid p.options
    p.showRed p.showGreen p.showBlue p.showValue p.showRAW p.showBAR p.showChro
  exact HistogramRGBArea.updateBackBuffer_keeps_clean E _ _ 0 0 0 (by rw [hk.1, hk.2]; exact h)

theorem motion_bar_clean (p : HistogramPanel) (x : ℚ) (width : Int)
    (h : p.histogramRGBArea.surface = none ∨ p.histogramRGBArea.dirty = false) :
    ((p.on_motion_notify_event x width).getD p).histogramRGBArea.surface = none ∨
      ((p.on_motion_notify_event x width).getD p).histogramRGBArea.dirty = false := by
  cases hp : p.histogramArea.isPressed
  · simpa [on_motion_notify_event, HistogramArea.on_motion_notify_event, hp] using h
  · cases hz : HistogramArea.zoomFactor p.histogramArea.factor x
        p.histogramArea.movingPosition width <;>
      simpa [on_motion_notify_event, HistogramArea.on_motion_notify_event, hp, hz,
        HistogramRGBArea.factorChanged] using h

theorem button_press_bar (p : HistogramPanel) (x : ℚ) (type : EventType) (button : Int) :
    (p.on_button_press_event x type button).histogramRGBArea = p.histogramRGBArea := by
  by_cases hc : type = EventType.doubleButtonPress ∧ button = 1
  · simp only [on_button_press_event, HistogramArea.on_button_press_event, hc, and_self,
      if_true, toggle_button_mode]
  · simp only [on_button_press_event, HistogramArea.on_button_press_event, hc, if_false,
      Bool.false_eq_true]

theorem apply_bar_clean (E : Extern) (p : HistogramPanel) (op : Op)
    (h : p.histogramRGBArea.surface = none ∨ p.histogramRGBArea.dirty = false) :
    (p.apply E op).histogramRGBArea.surface = none ∨
      (p.apply E op).histogramRGBArea.dirty = false := by
  cases op with
  | redToggled => exact rgbv_toggled_bar_clean E _ h
  | greenToggled => exact rgbv_toggled_bar_clean E _ h
  | blueToggled => exact rgbv_toggled_bar_clean E _ h
  | valueToggled => exact rgbv_toggled_bar_clean E _ h
  | chroToggled => exact rgbv_toggled_bar_clean E _ h
  | rawToggled =>
    refine rgbv_toggled_bar_clean E _ ?_
    show (if (!p.showRAW) = true then _ else _ : HistogramPanel).histogramRGBArea.surface = none ∨
      (if (!p.showRAW) = true then _ else _ : HistogramPanel).histogramRGBArea.dirty = false
    split_ifs <;> exact h
  | barToggled => exact rgbv_toggled_bar_clean E _ h
  | modeReleased => exact rgbv_toggled_bar_clean E _ h
  | buttonPress x type button =>
    show (p.on_button_press_event x type button).histogramRGBArea.surface = none ∨
      (p.on_button_press_event x type button).histogramRGBArea.dirty = false
    rw [button_press_bar]
    exact h
  | buttonRelease => exact h
  | motion x width => exact motion_bar_clean p x width h
  | setHistRGBInvalid =>
    exact HistogramRGBArea.updateBackBuffer_keeps_clean E _ _ _ _ _ h
  | pointerMoved validPos r g b =>
    cases validPos <;> exact HistogramRGBArea.updateBackBuffer_keeps_clean E _ _ _ _ _ h
  | resized height => exact HistogramRGBArea.updateBackBuffer_keeps_clean E _ _ _ _ _ h
  | realizeArea winw winh => exact h
  | realizeBar winw winh => exact h
  | drawArea width height => exact h
  | drawBar => exact HistogramRGBArea.on_draw_keeps_clean E _ _ h
  | updateArea data => exact h
  | idleArea => exact h
  | updateBar valh rh gh bh =>
    show (p.histogramRGBArea.update valh rh gh bh).surface = none ∨
      (p.histogramRGBArea.update valh rh gh bh).dirty = false
    unfold HistogramRGBArea.update
    split_ifs <;> exact h
  | idleBar => exact HistogramRGBArea.updateBackBuffer_keeps_clean E _ _ _ _ _ h

theorem run_bar_clean (E : Extern) (opts : Options) (ops : List Op) :
    (run E opts ops).histogramRGBArea.surface = none ∨
      (run E opts ops).histogramRGBArea.dirty = false := by
  have hfold : ∀ (l : List Op) (p : HistogramPanel),
      (p.histogramRGBArea.surface = none ∨ p.histogramRGBArea.dirty = false) →
      ((l.foldl (apply E) p).histogramRGBArea.surface = none ∨
        (l.foldl (apply E) p).histogramRGBArea.dirty = false) := by
    intro l
    induction l with
    | nil => exact fun p h => h
    | cons op rest ih => exact fun p h => ih (p.apply E op) (apply_bar_clean E p op h)
  exact hfold ops (new opts) (Or.inl rfl)

end HistogramPanel

theorem HistogramArea.on_draw_clean_copy (a : HistogramArea) (width height : Int)
    (ha : a.realized = true) (d : Bool)
    (hd : DrawStep.copySurface d ∈ (a.on_draw width height).2) : d = false := by
  have hclean := a.updateBackBuffer_clean ha
  by_cases hre : (width ≠ a.oldwidth ∨ height ≠ a.oldheight ∨ a.dirty = true)
  · rw [HistogramArea.on_draw_redraw a width height hre, hclean] at hd
    simpa using hd
  · rw [HistogramArea.on_draw_keep a width height hre] at hd
    simpa using hd

/-- C11: on a realized histogram area, in every state, `on_draw` never copies
the surface while the bitmap is dirty: when the bitmap is dirty at entry or the
widget size differs from `oldwidth`/`oldheight`, `updateBackBuffer` runs first,
redraws and clears the flag. On a realized readout bar whose `showMode` is
true, in every state, a dirty bitmap is likewise redrawn and cleaned before the
copy. And in every state that the panel reaches from its construction by any
sequence of operations, whatever `showMode` (bar toggled off and raw mode
included), the bar has no surface or a clean bitmap, so that `on_draw` of the
bar never copies a dirty surface either. -/
theorem on_draw_never_copies_dirty (E : Extern) :
    (∀ (a : HistogramArea) (width height : Int), a.realized = true →
      (∀ d, DrawStep.copySurface d ∈ (a.on_draw width height).2 → d = false) ∧
      ((width ≠ a.oldwidth ∨ height ≠ a.oldheight ∨ a.dirty = true) →
        (a.on_draw width height).1 = a.updateBackBuffer ∧
        (a.on_draw width height).1.dirty = false ∧
        (a.on_draw width height).2 =
          [DrawStep.updateBackBuffer, DrawStep.renderBackground, DrawStep.copySurface false,
            DrawStep.renderFrame])) ∧
    (∀ (opts : Options) (b : HistogramRGBArea), b.realized = true → b.showMode = true →
      (∀ d, DrawStep.copySurface d ∈ (b.on_draw E opts).2 → d = false) ∧
      (b.dirty = true → b.surface ≠ none →
        (b.on_draw E opts).1 = b.updateBackBuffer E opts (-1) (-1) (-1) ∧
        (b.on_draw E opts).1.dirty = false ∧
        (b.on_draw E opts).2 =
          [DrawStep.renderBackground, DrawStep.updateBackBuffer, DrawStep.copySurface false,
            DrawStep.renderFrame])) ∧
    (∀ (opts : Options) (ops : List HistogramPanel.Op),
      ((HistogramPanel.run E opts ops).histogramRGBArea.surface = none ∨
        (HistogramPanel.run E opts ops).histogramRGBArea.dirty = false) ∧
      (∀ d, DrawStep.copySurface d ∈
          ((HistogramPanel.run E opts ops).histogramRGBArea.on_draw E
            (HistogramPanel.run E opts ops).options).2 → d = false) ∧
      ((HistogramPanel.run E opts ops).histogramArea.realized = true →
        ∀ (width height : Int) (d : Bool),
          DrawStep.copySurface d ∈
            ((HistogramPanel.run E opts ops).histogramArea.on_draw width height).2 →
          d = false)) := by
  refine ⟨?_, ?_, ?_⟩
  · intro a width height ha
    have hclean := a.updateBackBuffer_clean ha
    refine ⟨fun d hd => HistogramArea.on_draw_clean_copy a width height ha d hd, ?_⟩
    intro hre
    rw [HistogramArea.on_draw_redraw a width height hre]
    exact ⟨rfl, hclean, by rw [hclean]⟩
  · intro opts b hb hs
    have hc := HistogramRGBArea.updateBackBuffer_shown_clean E opts b (-1) (-1) (-1) hb hs
    constructor
    · intro d hd
      cases hsf : b.surface with
      | none => simp [HistogramRGBArea.on_draw, hsf] at hd
      | some sf =>
        cases hdirty : b.dirty
        · simp [HistogramRGBArea.on_draw, hsf, hdirty] at hd
          exact hd
        · simp [HistogramRGBArea.on_draw, hsf, hdirty, hc] at hd
          exact hd
    · intro hdirty hsf
      cases hsf' : b.surface with
      | none => exact absurd hsf' hsf
      | some sf => simp [HistogramRGBArea.on_draw, hsf', hdirty, hc]
  · intro opts ops
    have hinv := HistogramPanel.run_bar_clean E opts ops
    exact ⟨hinv, fun d hd => HistogramRGBArea.on_draw_bar_clean_copy E _ _ hinv d hd,
      fun ha width height d hd => HistogramArea.on_draw_clean_copy _ width height ha d hd⟩

/-- C11 at the realized `sampleArea` marked dirty, which redraws before the
copy, and at the panel constructed with the bar shown, whose bar is realized,
receives a sample, and is then put in raw mode: its `showMode` is false, it has
a surface, and `on_draw` copies it clean. -/
theorem on_draw_never_copies_dirty_witness :
    ({ sampleArea with dirty := true } : HistogramArea).realized = true ∧
    (({ sampleArea with dirty := true } : HistogramArea).on_draw 400 100).2 =
      [DrawStep.updateBackBuffer, DrawStep.renderBackground, DrawStep.copySurface false,
        DrawStep.renderFrame] ∧
    (HistogramPanel.run sampleExtern samplePanel.options
      [.realizeBar 258 8, .pointerMoved true 0 128 255, .rawToggled]).histogramRGBArea.showMode
        = false ∧
    (HistogramPanel.run sampleExtern samplePanel.options
      [.realizeBar 258 8, .pointerMoved true 0 128 255, .rawToggled]).histogramRGBArea.surface
        ≠ none ∧
    (∀ d, DrawStep.copySurface d ∈
      ((HistogramPanel.run sampleExtern samplePanel.options
        [.realizeBar 258 8, .pointerMoved true 0 128 255, .rawToggled]).histogramRGBArea.on_draw
          sampleExtern
          (HistogramPanel.run sampleExtern samplePanel.options
            [.realizeBar 258 8, .pointerMoved true 0 128 255, .rawToggled]).options).2 →
      d = false) :=
  have h := on_draw_never_copies_dirty sampleExtern
  ⟨rfl, ((h.1 { sampleArea with dirty := true } 400 100 rfl).2 (Or.inr (Or.inr rfl))).2.2,
    rfl, by
      simp [HistogramPanel.run, HistogramPanel.apply, HistogramPanel.new, HistogramPanel.pointerMoved,
        HistogramPanel.raw_toggled, HistogramPanel.rgbv_toggled, HistogramRGBArea.updateOptions,
        HistogramRGBArea.updateBackBuffer, HistogramRGBArea.setDrawRectangle,
        HistogramRGBArea.new, samplePanel],
    (h.2.2 samplePanel.options
      [.realizeBar 258 8, .pointerMoved true 0 128 255, .rawToggled]).2.1⟩

/-! ## C12: the idle helper -/

namespace IdleSystem

theorem inv_init : Inv init := by
  simp [Inv, init]

theorem inv_update (s : IdleSystem) (hi : Inv s) (ha : s.widgetAlive = true) : Inv s.update := by
  obtain ⟨h1, h2, h3⟩ := hi
  cases hh : s.helper with
  | none =>
    rw [hh] at h3
    simp [ha] at h3
  | some h =>
    rw [hh] at h3
    obtain ⟨hp, hf, hd⟩ := h3
    simp only [Inv, update, hh]
    refine ⟨h1, h2, ?_, hf, hd⟩
    simp only [hp]
    push_cast
    ring

theorem inv_destroy (s : IdleSystem) (hi : Inv s) (ha : s.widgetAlive = true) :
    Inv s.destroy := by
  obtain ⟨h1, h2, h3⟩ := hi
  cases hh : s.helper with
  | none =>
    rw [hh] at h3
    simp [ha] at h3
  | some h =>
    rw [hh] at h3
    obtain ⟨hp, hf, _⟩ := h3
    by_cases h0 : h.pending = 0
    · have hq : s.queued = 0 := by
        rw [h0] at hp
        exact_mod_cast hp.symm
      have e : s.destroy = { s with widgetAlive := false, helper := none, frees := s.frees + 1 } := by
        simp only [destroy, hh, h0, ne_eq, not_true_eq_false, if_false]
      rw [e]
      exact ⟨h1, h2, hq, by simp [hf], rfl⟩
    · have e : s.destroy =
          { s with widgetAlive := false, helper := some { h with destroyed := true } } := by
        simp only [destroy, hh, h0, ne_eq, not_false_eq_true, if_true]
      rw [e]
      exact ⟨h1, h2, hp, hf, rfl⟩

theorem inv_callback (s : IdleSystem) (hi : Inv s) (hq : 0 < s.queued) : Inv s.callback := by
  obtain ⟨h1, h2, h3⟩ := hi
  cases hh : s.helper with
  | none =>
    rw [hh] at h3
    omega
  | some h =>
    rw [hh] at h3
    obtain ⟨hp, hf, hd⟩ := h3
    have hsub : h.pending - 1 = ((s.queued - 1 : Nat) : Int) := by omega
    cases hdes : h.destroyed
    · have ha : s.widgetAlive = true := by
        rw [hdes] at hd
        cases hw : s.widgetAlive
        · simp [hw] at hd
        · rfl
      have e : s.callback =
          { s with helper := some { h with pending := h.pending - 1 },
                   queued := s.queued - 1 } := by
        simp only [callback, hh, hdes, Bool.false_eq_true, if_false, ha, if_true]
      rw [e]
      exact ⟨h1, h2, hsub, hf, by simp [hdes, ha]⟩
    · have ha : s.widgetAlive = false := by
        rw [hdes] at hd
        cases hw : s.widgetAlive
        · rfl
        · simp [hw] at hd
      by_cases hone : h.pending = 1
      · have hq1 : s.queued - 1 = 0 := by omega
        have e : s.callback =
            { s with helper := none, frees := s.frees + 1, queued := s.queued - 1 } := by
          simp only [callback, hh, hdes, if_true, hone]
        rw [e]
        exact ⟨h1, h2, hq1, by simp [hf], ha⟩
      · have e : s.callback =
            { s with helper := some { h with pending := h.pending - 1 },
                     queued := s.queued - 1 } := by
          simp only [callback, hh, hdes, if_true, hone, if_false]
        rw [e]
        exact ⟨h1, h2, hsub, hf, by simp [hdes, ha]⟩

theorem inv_reachable (s : IdleSystem) (hr : Reachable s) : Inv s := by
  induction hr with
  | init => exact inv_init
  | step s t _ hst ih =>
    cases hst with
    | update ha => exact inv_update s ih ha
    | callback hq => exact inv_callback s ih hq
    | destroy ha => exact inv_destroy s ih ha

theorem callbacks_after_destroy (q : Nat) :
    ∀ d : IdleSystem, d.helper = some { destroyed := true, pending := ((q + 1 : Nat) : Int) } →
      d.queued = q + 1 → d.frees = 0 →
      (∀ j, j < q + 1 → (callbacks j d).frees = 0 ∧ (callbacks j d).helper ≠ none) ∧
      (callbacks (q + 1) d).frees = 1 ∧ (callbacks (q + 1) d).helper = none ∧
      (callbacks (q + 1) d).queued = 0 := by
  induction q with
  | zero =>
    intro d hh hq hf
    refine ⟨?_, ?_, ?_, ?_⟩
    · intro j hj
      have hj0 : j = 0 := by omega
      subst hj0
      simp [callbacks, hf, hh]
    all_goals simp [callbacks, callback, hh, hf, hq]
  | succ n ih =>
    intro d hh hq hf
    have hne : ((n + 1 + 1 : Nat) : Int) ≠ 1 := by omega
    have hc : d.callback =
        { d with helper := some { destroyed := true, pending := ((n + 1 : Nat) : Int) },
                 queued := n + 1 } := by
      simp only [callback, hh, if_true, hne, if_false, hq]
      congr 2
      simp only [IdleHelper.mk.injEq, true_and]
      push_cast
      ring
    obtain ⟨ih1, ih2, ih3, ih4⟩ := ih d.callback (by rw [hc]) (by rw [hc]) (by rw [hc]; exact hf)
    refine ⟨?_, ih2, ih3, ih4⟩
    intro j hj
    cases j with
    | zero => simp [callbacks, hf, hh]
    | succ j' => exact ih1 j' (by omega)

end IdleSystem

/-- C12: in the step system of the idle helper (steps `update`, callback run
and widget destruction, every queued callback running in turn), every
reachable state has a live helper whose `pending` is the number of queued
callbacks, or a freed helper and nothing queued; the helper was freed at most
once, no callback or method accessed it after its `delete`, and no callback
used the widget after its destructor. If a live widget is destroyed with no
callback queued the destructor frees the helper; with `k >= 1` queued, the
helper is still live after each of the first `k - 1` callbacks and is freed by
the `k`-th. The system is that of `HistogramArea` and of `HistogramRGBArea`. -/
theorem idle_helper_safe :
    (∀ s : IdleSystem, IdleSystem.Reachable s →
      (∀ h, s.helper = some h → h.pending = (s.queued : Int)) ∧
      (s.helper = none → s.queued = 0) ∧
      s.frees ≤ 1 ∧ s.freedHelperUses = 0 ∧ s.deadWidgetUses = 0) ∧
    (∀ s : IdleSystem, IdleSystem.Reachable s → s.widgetAlive = true →
      (s.queued = 0 → s.destroy.frees = 1 ∧ s.destroy.helper = none) ∧
      (1 ≤ s.queued →
        (∀ j, j < s.queued →
          (IdleSystem.callbacks j s.destroy).frees = 0 ∧
          (IdleSystem.callbacks j s.destroy).helper ≠ none) ∧
        (IdleSystem.callbacks s.queued s.destroy).frees = 1 ∧
        (IdleSystem.callbacks s.queued s.destroy).helper = none ∧
        (IdleSystem.callbacks s.queued s.destroy).queued = 0)) := by
  constructor
  · intro s hr
    obtain ⟨h1, h2, h3⟩ := IdleSystem.inv_reachable s hr
    cases hh : s.helper with
    | none =>
      rw [hh] at h3
      exact ⟨fun h hc => by simp at hc, fun _ => h3.1, by omega, h1, h2⟩
    | some h =>
      rw [hh] at h3
      refine ⟨fun h' hc => ?_, fun hc => by simp at hc, by omega, h1, h2⟩
      have : h = h' := by simpa using hc
      rw [← this]
      exact h3.1
  · intro s hr ha
    obtain ⟨_, _, h3⟩ := IdleSystem.inv_reachable s hr
    cases hh : s.helper with
    | none =>
      rw [hh] at h3
      simp [ha] at h3
    | some h =>
      rw [hh] at h3
      obtain ⟨hp, hf, hd⟩ := h3
      constructor
      · intro hq
        have h0 : h.pending = 0 := by
          rw [hp, hq]
          rfl
        simp [IdleSystem.destroy, hh, h0, hf]
      · intro hq
        obtain ⟨q, hq'⟩ : ∃ q, s.queued = q + 1 := ⟨s.queued - 1, by omega⟩
        have hne : h.pending ≠ 0 := by
          rw [hp]
          omega
        have hdes : s.destroy =
            { s with widgetAlive := false,
                     helper := some { destroyed := true, pending := ((q + 1 : Nat) : Int) } } := by
          simp only [IdleSystem.destroy, hh, hne, ne_eq, not_false_eq_true, if_true]
          congr 2
          rw [hp, hq']
        have hres := IdleSystem.callbacks_after_destroy q s.destroy (by rw [hdes])
          (by rw [hdes]; exact hq') (by rw [hdes]; exact hf)
        rw [hq']
        exact hres

/-- C12 on the widget that received two `update`s: destroyed with two callbacks
queued, its helper is still live after the first callback and freed by the
second; destroyed right after construction, it is freed by the destructor. -/
theorem idle_helper_safe_witness :
    IdleSystem.Reachable IdleSystem.init.update.update ∧
    IdleSystem.init.update.update.widgetAlive = true ∧
    IdleSystem.init.update.update.queued = 2 ∧
    (IdleSystem.callbacks 1 IdleSystem.init.update.update.destroy).frees = 0 ∧
    (IdleSystem.callbacks 2 IdleSystem.init.update.update.destroy).frees = 1 ∧
    IdleSystem.init.destroy.frees = 1 :=
  have hr1 : IdleSystem.Reachable IdleSystem.init.update :=
    IdleSystem.Reachable.step _ _ IdleSystem.Reachable.init (IdleSystem.Step.update _ rfl)
  have hr2 : IdleSystem.Reachable IdleSystem.init.update.update :=
    IdleSystem.Reachable.step _ _ hr1 (IdleSystem.Step.update _ rfl)
  have h := (idle_helper_safe.2 IdleSystem.init.update.update hr2 rfl).2 (by decide)
  ⟨hr2, rfl, rfl, (h.1 1 (by decide)).1, h.2.1,
    ((idle_helper_safe.2 IdleSystem.init IdleSystem.Reachable.init rfl).1 rfl).1⟩

/-! ## C17: the draw mode of the area mirrors the option -/

namespace HistogramPanel

theorem updateBackBuffer_drawMode (s : HistogramArea) :
    s.updateBackBuffer.drawMode = s.drawMode := by
  unfold HistogramArea.updateBackBuffer
  split_ifs <;> rfl

theorem rgbv_toggled_area_drawMode (E : Extern) (p : HistogramPanel) :
    (p.rgbv_toggled E).histogramArea.drawMode = p.options.histogramDrawMode := by
  simp only [rgbv_toggled, HistogramArea.updateOptions, updateBackBuffer_drawMode]

theorem rgbv_toggled_mirrors (E : Extern) (p : HistogramPanel) :
    (p.rgbv_toggled E).histogramArea.drawMode =
      (p.rgbv_toggled E).options.histogramDrawMode := by
  rw [rgbv_toggled_area_drawMode, rgbv_toggled_drawMode]

theorem button_press_mirrors (p : HistogramPanel) (x : ℚ) (type : EventType) (button : Int)
    (h : p.histogramArea.drawMode = p.options.histogramDrawMode) :
    (p.on_button_press_event x type button).histogramArea.drawMode =
      (p.on_button_press_event x type button).options.histogramDrawMode := by
  by_cases hc : type = EventType.doubleButtonPress ∧ button = 1
  · simp only [on_button_press_event, HistogramArea.on_button_press_event, hc, and_self,
      if_true, toggle_button_mode, updateBackBuffer_drawMode, h]
  · simp only [on_button_press_event, HistogramArea.on_button_press_event, hc, if_false,
      Bool.false_eq_true, h]

theorem motion_mirrors (p : HistogramPanel) (x : ℚ) (width : Int)
    (h : p.histogramArea.drawMode = p.options.histogramDrawMode) :
    ((p.on_motion_notify_event x width).getD p).histogramArea.drawMode =
      ((p.on_motion_notify_event x width).getD p).options.histogramDrawMode := by
  cases hp : p.histogramArea.isPressed
  · simp [on_motion_notify_event, HistogramArea.on_motion_notify_event, hp, h]
  · cases hz : HistogramArea.zoomFactor p.histogramArea.factor x
        p.histogramArea.movingPosition width <;>
      simp [on_motion_notify_event, HistogramArea.on_motion_notify_event, hp, hz, h]

theorem apply_mirrors (E : Extern) (p : HistogramPanel) (op : Op)
    (h : p.histogramArea.drawMode = p.options.histogramDrawMode) :
    (p.apply E op).histogramArea.drawMode = (p.apply E op).options.histogramDrawMode := by
  cases op with
  | redToggled => exact rgbv_toggled_mirrors E _
  | greenToggled => exact rgbv_toggled_mirrors E _
  | blueToggled => exact rgbv_toggled_mirrors E _
  | valueToggled => exact rgbv_toggled_mirrors E _
  | chroToggled => exact rgbv_toggled_mirrors E _
  | rawToggled => exact rgbv_toggled_mirrors E _
  | barToggled => exact rgbv_toggled_mirrors E _
  | modeReleased => exact rgbv_toggled_mirrors E _
  | buttonPress x type button => exact button_press_mirrors p x type button h
  | buttonRelease => exact h
  | motion x width => exact motion_mirrors p x width h
  | setHistRGBInvalid => exact h
  | pointerMoved validPos r g b =>
    cases validPos <;> exact h
  | resized height =>
    simp only [apply, resized, updateBackBuffer_drawMode]
    exact h
  | realizeArea winw winh => exact h
  | realizeBar winw winh => exact h
  | drawArea width height =>
    have hd : (p.histogramArea.on_draw width height).1.drawMode = p.histogramArea.drawMode := by
      unfold HistogramArea.on_draw
      simp only
      split_ifs
      · exact updateBackBuffer_drawMode _
      · rfl
    show (p.histogramArea.on_draw width height).1.drawMode = p.options.histogramDrawMode
    rw [hd]
    exact h
  | drawBar => exact h
  | updateArea data =>
    cases data <;> exact h
  | idleArea =>
    show (HistogramArea.updateBackBuffer { p.histogramArea with dirty := true }).drawMode =
      p.options.histogramDrawMode
    rw [updateBackBuffer_drawMode]
    exact h
  | updateBar valh rh gh bh => exact h
  | idleBar => exact h

theorem foldl_mirrors (E : Extern) (ops : List Op) :
    ∀ p : HistogramPanel, p.histogramArea.drawMode = p.options.histogramDrawMode →
      (ops.foldl (apply E) p).histogramArea.drawMode =
        (ops.foldl (apply E) p).options.histogramDrawMode := by
  induction ops with
  | nil => exact fun p h => h
  | cons op rest ih => exact fun p h => ih (p.apply E op) (apply_mirrors E p op h)

end HistogramPanel

/-- C17: `HistogramArea.drawMode = options.histogramDrawMode` holds after
construction; `rgbv_toggled`, hence `mode_released` and every toggle handler,
establishes it through `HistogramArea::updateOptions`; every operation of the
panel and of the histogram area, the double click included, preserves it; so it
holds after any sequence of operations on a constructed panel, and the curve,
the grid and the readout bar use the same draw mode. -/
theorem draw_mode_mirrored (E : Extern) :
    (∀ opts : Options,
      (HistogramPanel.new opts).histogramArea.drawMode =
        (HistogramPanel.new opts).options.histogramDrawMode) ∧
    (∀ p : HistogramPanel,
      (p.rgbv_toggled E).histogramArea.drawMode =
        (p.rgbv_toggled E).options.histogramDrawMode ∧
      (p.mode_released E).histogramArea.drawMode =
        (p.mode_released E).options.histogramDrawMode) ∧
    (∀ (p : HistogramPanel) (op : HistogramPanel.Op),
      p.histogramArea.drawMode = p.options.histogramDrawMode →
      (p.apply E op).histogramArea.drawMode = (p.apply E op).options.histogramDrawMode) ∧
    (∀ (opts : Options) (ops : List HistogramPanel.Op),
      (HistogramPanel.run E opts ops).histogramArea.drawMode =
        (HistogramPanel.run E opts ops).options.histogramDrawMode) := by
  refine ⟨fun opts => rfl, fun p => ⟨HistogramPanel.rgbv_toggled_mirrors E p,
    HistogramPanel.rgbv_toggled_mirrors E _⟩, HistogramPanel.apply_mirrors E, ?_⟩
  intro opts ops
  exact HistogramPanel.foldl_mirrors E ops (HistogramPanel.new opts) rfl

/-- C17 at `samplePanel` (both modes 0): after a left double click both the
area and the option hold mode 1. -/
theorem draw_mode_mirrored_witness :
    samplePanel.histogramArea.drawMode = samplePanel.options.histogramDrawMode ∧
    (samplePanel.apply sampleExtern
      (.buttonPress 5 .doubleButtonPress 1)).histogramArea.drawMode =
      (samplePanel.apply sampleExtern
        (.buttonPress 5 .doubleButtonPress 1)).options.histogramDrawMode ∧
    (samplePanel.apply sampleExtern
      (.buttonPress 5 .doubleButtonPress 1)).options.histogramDrawMode = 1 :=
  ⟨rfl, (draw_mode_mirrored sampleExtern).2.2.1 samplePanel
    (.buttonPress 5 .doubleButtonPress 1) rfl, rfl⟩

end Histogram
